import Mathlib

/-!
# Inventory database application: persistence and query construction

A shallow embedding of `src/main.cpp`.  Text (both `std::wstring` and the
UTF-8 `std::string`) is a list of characters; `int` is a 32-bit two's
complement integer carried as an `Int` within `INT_MIN .. INT_MAX`.  The window
controls of `AppState` are represented by the text they hold.  The SQLite
engine is represented by the table `items` and by the effect of the four
statements the program issues.
-/

namespace Inventory

/-! ## Text helpers -/

/-- Smallest value of the 32-bit `int`. -/
def INT_MIN : Int := -2147483648

/-- Largest value of the 32-bit `int`. -/
def INT_MAX : Int := 2147483647

/-- Whitespace of the classic locale, as the stream sentry skips it:
U+0009 .. U+000D and U+0020. -/
def iswspace (c : Char) : Bool :=
  c.toNat = 32 || (9 ≤ c.toNat && c.toNat ≤ 13)

/-- Decimal digits `0` .. `9`, the only characters `num_get` accumulates after
the sign in base 10. -/
def iswdigit (c : Char) : Bool :=
  48 ≤ c.toNat && c.toNat ≤ 57

/-- Numeric value of a decimal digit character. -/
def digitValue (c : Char) : Nat :=
  c.toNat - 48

/-- Value of a run of decimal digits, most significant first. -/
def digitsValue (ds : List Char) : Nat :=
  ds.foldl (fun acc c => 10 * acc + digitValue c) 0

/-- `ToUtf8`: the empty string maps to the empty string; otherwise
`WideCharToMultiByte` is called with length `-1`, so the conversion reads the
wide string up to its first NUL character.  Re-encoding is the identity on
characters. -/
def ToUtf8 (value : List Char) : List Char :=
  if value.isEmpty then [] else value.takeWhile (fun c => c.toNat != 0)

/-- `FromUtf8`: a null pointer maps to the empty string; otherwise the text is
re-encoded, which is the identity on characters. -/
def FromUtf8 (value : Option (List Char)) : List Char :=
  match value with
  | none => []
  | some text => text

/-! ## `ParseInt` -/

/-- Stream state after `stream >> out` on a `std::wistringstream`. -/
structure Extraction where
  /-- Value stored into `out`. -/
  out : Int
  /-- Whether `failbit` is set. -/
  fail : Bool
  /-- Whether `eofbit` is set. -/
  eof : Bool
deriving DecidableEq, Repr

/-- The digits stage of the extraction, after the optional sign: the longest
run of decimal digits is read; no digit, or a value outside the `int` range,
sets `failbit`; running into the end of the input sets `eofbit`. -/
def extractDigits (negative : Bool) (body : List Char) : Extraction :=
  let digits := body.takeWhile iswdigit
  let rest := body.dropWhile iswdigit
  if digits.isEmpty then
    { out := 0, fail := true, eof := rest.isEmpty }
  else
    let magnitude : Int := (digitsValue digits : Nat)
    let v : Int := if negative then -magnitude else magnitude
    if v < INT_MIN then { out := INT_MIN, fail := true, eof := rest.isEmpty }
    else if INT_MAX < v then { out := INT_MAX, fail := true, eof := rest.isEmpty }
    else { out := v, fail := false, eof := rest.isEmpty }

/-- Formatted extraction of an `int` (`stream >> out`, flags `skipws | dec`):
leading whitespace is skipped, then an optional sign `-` (U+002D) or `+`
(U+002B) and the digits are read.  Input that is all whitespace sets `failbit`
and `eofbit`. -/
def extractInt (value : List Char) : Extraction :=
  match value.dropWhile iswspace with
  | [] => { out := 0, fail := true, eof := true }
  | c :: cs =>
    if c.toNat = 45 then extractDigits true cs
    else if c.toNat = 43 then extractDigits false cs
    else extractDigits false (c :: cs)

/-- `ParseInt`: `some v` when the function returns `true` having stored `v`
in `out`, `none` when it returns `false` (every caller then discards `out`). -/
def ParseInt (value : List Char) : Option Int :=
  if value.isEmpty then none
  else
    let stream := extractInt value
    if !stream.fail && stream.eof then some stream.out else none

/-- `std::to_wstring` of an `int`: its decimal numeral. -/
def to_wstring (v : Int) : List Char :=
  (toString v).toList

/-! ## The table and the engine -/

/-- A row of the table `items` created by `InitDatabase`. -/
structure Row where
  id : Int
  name : List Char
  part_number : List Char
  nsn : List Char
  serial_number : List Char
  quantity : Int
  created_at : List Char
deriving DecidableEq, Repr

/-- The database behind the connection `g_state.db`: the rows of `items` in
rowid order and the AUTOINCREMENT counter kept in `sqlite_sequence`. -/
structure Database where
  items : List Row
  seq : Int
deriving DecidableEq, Repr

/-- A value bound to a placeholder of a prepared statement; a placeholder that
was never bound holds NULL. -/
inductive SqlValue where
  | null
  | text (value : List Char)
  | int (value : Int)
deriving DecidableEq, Repr

/-- The calls the program makes on the SQLite API and on the status label, in
the order they happen.  This record is instrumentation of the embedding, not
program state. -/
inductive Event where
  | prepare (sql : List Char)
  | bind_text (index : Int) (value : List Char)
  | bind_int (index : Int) (value : Int)
  | step
  | finalize
  | status (message : List Char)
deriving DecidableEq, Repr

/-- Whether an event is a call on the database. -/
def Event.isDatabaseCall : Event → Bool
  | .status _ => false
  | _ => true

/-- ASCII lower-casing as the LIKE operator applies it: only `A` .. `Z` are
folded. -/
def foldCase (c : Char) : Char :=
  if 65 ≤ c.toNat && c.toNat ≤ 90 then Char.ofNat (c.toNat + 32) else c

/-- The LIKE operator of the engine, without ESCAPE clause: `%` in the pattern
matches any run of characters, `_` matches exactly one character, any other
character matches itself up to ASCII case. -/
def likeMatch : List Char → List Char → Bool
  | [], text => text.isEmpty
  | p :: pattern, text =>
    if p = '%' then text.tails.any (likeMatch pattern)
    else
      match text with
      | [] => false
      | t :: rest => (p = '_' || foldCase p = foldCase t) && likeMatch pattern rest

/-- Binary collation on text: strict lexicographic order by code point. -/
def textLt : List Char → List Char → Bool
  | _, [] => false
  | [], _ :: _ => true
  | a :: as, b :: bs => a.toNat < b.toNat || (a.toNat = b.toNat && textLt as bs)

/-- The five predicates `RefreshResults` can emit. -/
def kNameCondition : List Char := "name LIKE ?".toList
/-- Predicate on the column `part_number`. -/
def kPartCondition : List Char := "part_number LIKE ?".toList
/-- Predicate on the column `nsn`. -/
def kNsnCondition : List Char := "nsn LIKE ?".toList
/-- Predicate on the column `serial_number`. -/
def kSerialCondition : List Char := "serial_number LIKE ?".toList
/-- Predicate on the column `quantity`. -/
def kQuantityCondition : List Char := "quantity = ?".toList

/-- The engine evaluating `column LIKE ?` on a TEXT value. -/
def likeColumn (column : List Char) (value : SqlValue) : Bool :=
  match value with
  | .text pattern => likeMatch pattern column
  | _ => false

/-- The engine evaluating `quantity = ?` on the INTEGER column. -/
def equalsColumn (column : Int) (value : SqlValue) : Bool :=
  match value with
  | .int v => decide (column = v)
  | _ => false

/-- The engine evaluating one conjunct of the WHERE clause on a row, given the
value of its placeholder.  Only the five predicates of the program are
interpreted. -/
def conditionHolds (condition : List Char) (value : SqlValue) (row : Row) : Bool :=
  if condition = kNameCondition then likeColumn row.name value
  else if condition = kPartCondition then likeColumn row.part_number value
  else if condition = kNsnCondition then likeColumn row.nsn value
  else if condition = kSerialCondition then likeColumn row.serial_number value
  else if condition = kQuantityCondition then equalsColumn row.quantity value
  else false

/-- The value of placeholder number `index` (counted from 1) after the given
bind calls: the latest value bound to it, NULL when none was. -/
def boundValue (binds : List (Int × SqlValue)) (index : Int) : SqlValue :=
  match binds.reverse.find? (fun b => b.1 = index) with
  | some b => b.2
  | none => .null

/-- The WHERE clause on a row: the `i`-th conjunct reads the `i`-th
placeholder of the statement; all conjuncts must hold. -/
def whereHolds (conditions : List (List Char)) (binds : List (Int × SqlValue))
    (first : Int) (row : Row) : Bool :=
  match conditions with
  | [] => true
  | c :: rest =>
    conditionHolds c (boundValue binds first) row && whereHolds rest binds (first + 1) row

/-- Insertion of a row into a list ordered by `created_at` descending; the row
goes before the rows that are not strictly later. -/
def insertByCreatedDesc (row : Row) : List Row → List Row
  | [] => [row]
  | r :: rest =>
    if textLt row.created_at r.created_at then r :: insertByCreatedDesc row rest
    else row :: r :: rest

/-- `ORDER BY created_at DESC` over the rows in scan order; rows with equal
`created_at` keep their scan order. -/
def orderByCreatedDesc : List Row → List Row
  | [] => []
  | r :: rest => insertByCreatedDesc r (orderByCreatedDesc rest)

/-- The engine running the SELECT of `RefreshResults`: the rows of `items`
satisfying every conjunct, ordered by `created_at` descending. -/
def selectItems (db : Database) (conditions : List (List Char))
    (binds : List (Int × SqlValue)) : List Row :=
  orderByCreatedDesc (db.items.filter (whereHolds conditions binds 1))

/-- `sqlite3_column_int`: the stored integer truncated to the 32-bit `int`. -/
def column_int (v : Int) : Int :=
  (v + 2147483648) % 4294967296 - 2147483648

/-! ## Application state and handlers -/

/-- `AppState` (`g_state`): the connection, the selected id, the text held by
the five edit controls, the rows of the list view (seven columns each) and the
status label; `trace` records the calls made so far. -/
structure AppState where
  db : Database
  selected_id : Int
  name_edit : List Char
  part_edit : List Char
  nsn_edit : List Char
  serial_edit : List Char
  quantity_edit : List Char
  results_view : List (List (List Char))
  status_label : List Char
  trace : List Event
deriving DecidableEq, Repr

/-- `SetStatus`: writes the status label. -/
def SetStatus (s : AppState) (message : List Char) : AppState :=
  { s with status_label := message, trace := s.trace ++ [Event.status message] }

/-- `ClearInputs`: empties the five edit controls, drops the selection and
shows `Ready`. -/
def ClearInputs (s : AppState) : AppState :=
  SetStatus
    { s with name_edit := [], part_edit := [], nsn_edit := [], serial_edit := [],
             quantity_edit := [], selected_id := -1 }
    "Ready".toList

/-- One of the four text blocks of `RefreshResults` (lines 171-186): a
non-empty field pushes its predicate and its pattern `%value%`. -/
def pushTextFilter (field condition : List Char)
    (acc : List (List Char) × List (List Char)) : List (List Char) × List (List Char) :=
  if !field.isEmpty then
    (acc.1 ++ [condition], acc.2 ++ ["%".toList ++ ToUtf8 field ++ "%".toList])
  else acc

/-- Lines 171-186 of `RefreshResults`: the four text blocks in source order,
starting from empty vectors. -/
def collectTextFilters (name part nsn serial : List Char) :
    List (List Char) × List (List Char) :=
  let acc0 : List (List Char) × List (List Char) := ([], [])
  let acc1 := pushTextFilter name kNameCondition acc0
  let acc2 := pushTextFilter part kPartCondition acc1
  let acc3 := pushTextFilter nsn kNsnCondition acc2
  pushTextFilter serial kSerialCondition acc3

/-- Lines 167-193 of `RefreshResults`: the vectors `conditions` and
`parameters` and the local `quantity_value`; `none` is the early return on a
quantity that does not parse. -/
def collectConditions (name part nsn serial quantity_text : List Char) :
    Option (List (List Char) × List (List Char) × Int) :=
  let acc := collectTextFilters name part nsn serial
  if !quantity_text.isEmpty then
    match ParseInt quantity_text with
    | none => none
    | some quantity_value => some (acc.1 ++ [kQuantityCondition], acc.2, quantity_value)
  else some (acc.1, acc.2, 0)

/-- The fixed head of the search query. -/
def kSelectHead : List Char :=
  "SELECT id, name, part_number, nsn, serial_number, quantity, created_at FROM items".toList

/-- The loop of lines 199-204 from index `i` on: ` AND ` before every
predicate but the first, then the predicate. -/
def appendConditions : Nat → List (List Char) → List Char → List Char
  | _, [], query => query
  | i, c :: rest, query =>
    appendConditions (i + 1) rest ((if 0 < i then query ++ " AND ".toList else query) ++ c)

/-- Lines 195-206 of `RefreshResults`: the query text. -/
def buildQuery (conditions : List (List Char)) : List Char :=
  let query := kSelectHead
  let query := if !conditions.isEmpty then appendConditions 0 conditions (query ++ " WHERE ".toList)
               else query
  query ++ " ORDER BY created_at DESC".toList

/-- The loop of lines 215-217: one `sqlite3_bind_text` per pattern, at
increasing indices; returns the calls and the next index. -/
def bindParameters : List (List Char) → Int → List (Int × SqlValue) × Int
  | [], index => ([], index)
  | value :: rest, index =>
    let r := bindParameters rest (index + 1)
    ((index, SqlValue.text value) :: r.1, r.2)

/-- Lines 214-220 of `RefreshResults`: every bind call, in order. -/
def searchBinds (parameters : List (List Char)) (quantity_text : List Char)
    (quantity_value : Int) : List (Int × SqlValue) :=
  let r := bindParameters parameters 1
  if !quantity_text.isEmpty then r.1 ++ [(r.2, SqlValue.int quantity_value)] else r.1

/-- The event recorded for a bind call. -/
def bindEvent (b : Int × SqlValue) : Event :=
  match b.2 with
  | .text value => Event.bind_text b.1 value
  | .int value => Event.bind_int b.1 value
  | .null => Event.bind_text b.1 []

/-- The seven cells of a result row (lines 227-240). -/
def rowCells (row : Row) : List (List Char) :=
  [ to_wstring (column_int row.id),
    FromUtf8 (some row.name),
    FromUtf8 (some row.part_number),
    FromUtf8 (some row.nsn),
    FromUtf8 (some row.serial_number),
    to_wstring (column_int row.quantity),
    FromUtf8 (some row.created_at) ]

/-- `RefreshResults`: reads the five controls, builds the query, binds the
values, and replaces the list view by the rows the engine returns.  The engine
prepares and steps this statement without error, so the `Search failed.` branch
is not taken. -/
def RefreshResults (s : AppState) : AppState :=
  let name := s.name_edit
  let part := s.part_edit
  let nsn := s.nsn_edit
  let serial := s.serial_edit
  let quantity_text := s.quantity_edit
  match collectConditions name part nsn serial quantity_text with
  | none => SetStatus s "Quantity must be a whole number.".toList
  | some (conditions, parameters, quantity_value) =>
    let query := buildQuery conditions
    let binds := searchBinds parameters quantity_text quantity_value
    let rows := selectItems s.db conditions binds
    let steps := List.replicate (rows.length + 1) Event.step
    let s1 : AppState :=
      { s with
        results_view := rows.map rowCells,
        trace := s.trace ++ [Event.prepare query] ++ binds.map bindEvent ++ steps
                   ++ [Event.finalize] }
    SetStatus s1 (to_wstring (rows.length : Int) ++ " record(s) found.".toList)

/-- The engine running the INSERT of `SaveRecord` at clock text `now`: the new
row gets the next AUTOINCREMENT id and `created_at = datetime(now)`. -/
def insertItem (db : Database) (now name part nsn serial : List Char) (quantity : Int) :
    Database :=
  let id := db.seq + 1
  { items := db.items ++
      [{ id := id, name := name, part_number := part, nsn := nsn, serial_number := serial,
         quantity := quantity, created_at := now }],
    seq := id }

/-- The engine running the UPDATE of `UpdateRecord`: every row whose id is the
bound id gets the five bound values; the other rows and `created_at` stay. -/
def updateItem (db : Database) (id : Int) (name part nsn serial : List Char) (quantity : Int) :
    Database :=
  { db with
    items := db.items.map (fun r =>
      if r.id = id then
        { r with name := name, part_number := part, nsn := nsn, serial_number := serial,
                 quantity := quantity }
      else r) }

/-- The engine running the DELETE of `DeleteRecord`: the rows whose id is the
bound id are removed. -/
def deleteItem (db : Database) (id : Int) : Database :=
  { db with items := db.items.filter (fun r => r.id ≠ id) }

/-- `SaveRecord` at clock text `now`.  The engine prepares and steps the INSERT
without error, so the `Save failed.` branches are not taken. -/
def SaveRecord (now : List Char) (s : AppState) : AppState :=
  let name := s.name_edit
  let part := s.part_edit
  let nsn := s.nsn_edit
  let serial := s.serial_edit
  let quantity_text := s.quantity_edit
  if name.isEmpty || part.isEmpty || nsn.isEmpty || serial.isEmpty then
    SetStatus s "Please fill out all fields before saving.".toList
  else
    match ParseInt quantity_text with
    | none => SetStatus s "Quantity must be a whole number.".toList
    | some quantity_value =>
      let sql :=
        ("INSERT INTO items (name, part_number, nsn, serial_number, quantity)"
          ++ " VALUES (?, ?, ?, ?, ?)").toList
      let s1 : AppState :=
        { s with
          db := insertItem s.db now (ToUtf8 name) (ToUtf8 part) (ToUtf8 nsn) (ToUtf8 serial)
                  quantity_value,
          trace := s.trace ++
            [ Event.prepare sql,
              Event.bind_text 1 (ToUtf8 name),
              Event.bind_text 2 (ToUtf8 part),
              Event.bind_text 3 (ToUtf8 nsn),
              Event.bind_text 4 (ToUtf8 serial),
              Event.bind_int 5 quantity_value,
              Event.step,
              Event.finalize ] }
      RefreshResults (ClearInputs (SetStatus s1 "Record saved.".toList))

/-- `UpdateRecord`.  The engine prepares and steps the UPDATE without error,
so the `Update failed.` branches are not taken. -/
def UpdateRecord (s : AppState) : AppState :=
  if s.selected_id < 0 then
    SetStatus s "Select a record to update.".toList
  else
    let name := s.name_edit
    let part := s.part_edit
    let nsn := s.nsn_edit
    let serial := s.serial_edit
    let quantity_text := s.quantity_edit
    if name.isEmpty || part.isEmpty || nsn.isEmpty || serial.isEmpty then
      SetStatus s "Please fill out all fields before updating.".toList
    else
      match ParseInt quantity_text with
      | none => SetStatus s "Quantity must be a whole number.".toList
      | some quantity_value =>
        let sql :=
          ("UPDATE items SET name = ?, part_number = ?, nsn = ?, serial_number = ?, quantity = ? "
            ++ "WHERE id = ?").toList
        let s1 : AppState :=
          { s with
            db := updateItem s.db s.selected_id (ToUtf8 name) (ToUtf8 part) (ToUtf8 nsn)
                    (ToUtf8 serial) quantity_value,
            trace := s.trace ++
              [ Event.prepare sql,
                Event.bind_text 1 (ToUtf8 name),
                Event.bind_text 2 (ToUtf8 part),
                Event.bind_text 3 (ToUtf8 nsn),
                Event.bind_text 4 (ToUtf8 serial),
                Event.bind_int 5 quantity_value,
                Event.bind_int 6 s.selected_id,
                Event.step,
                Event.finalize ] }
        RefreshResults (ClearInputs (SetStatus s1 "Record updated.".toList))

/-- `DeleteRecord`; `confirmed` is whether the message box returns `IDYES`.
The engine prepares and steps the DELETE without error, so the
`Delete failed.` branches are not taken. -/
def DeleteRecord (confirmed : Bool) (s : AppState) : AppState :=
  if s.selected_id < 0 then
    SetStatus s "Select a record to delete.".toList
  else if !confirmed then
    SetStatus s "Delete cancelled.".toList
  else
    let sql := "DELETE FROM items WHERE id = ?".toList
    let s1 : AppState :=
      { s with
        db := deleteItem s.db s.selected_id,
        trace := s.trace ++
          [ Event.prepare sql,
            Event.bind_int 1 s.selected_id,
            Event.step,
            Event.finalize ] }
    RefreshResults (ClearInputs (SetStatus s1 "Record deleted.".toList))

/-- A state with the given table and controls, nothing selected, an empty
list view and an empty trace. -/
def mkState (items : List Row) (name part nsn serial quantity : List Char) : AppState :=
  { db := { items := items, seq := (items.map (fun r => r.id)).foldl max 0 },
    selected_id := -1,
    name_edit := name, part_edit := part, nsn_edit := nsn, serial_edit := serial,
    quantity_edit := quantity,
    results_view := [], status_label := "Ready".toList, trace := [] }

/-- A state as `mkState` builds it, with the row of the given id selected. -/
def selectedState (items : List Row) (id : Int) (name part nsn serial quantity : List Char) :
    AppState :=
  { mkState items name part nsn serial quantity with selected_id := id }

/-! ## Reference definitions, following the specification -/

/-- Reference: the predicates of exactly the non-empty fields, text fields in
declaration order, quantity last. -/
def referencePredicates (name part nsn serial quantity : List Char) : List (List Char) :=
  (if name = [] then [] else ["name LIKE ?".toList]) ++
  (if part = [] then [] else ["part_number LIKE ?".toList]) ++
  (if nsn = [] then [] else ["nsn LIKE ?".toList]) ++
  (if serial = [] then [] else ["serial_number LIKE ?".toList]) ++
  (if quantity = [] then [] else ["quantity = ?".toList])

/-- Reference: the fixed SELECT, then ` WHERE ` and the predicates joined by
` AND ` unless there is none, then the ORDER BY clause. -/
def referenceQuery (name part nsn serial quantity : List Char) : List Char :=
  let predicates := referencePredicates name part nsn serial quantity
  "SELECT id, name, part_number, nsn, serial_number, quantity, created_at FROM items".toList ++
    (if predicates = [] then []
     else " WHERE ".toList ++ List.intercalate " AND ".toList predicates) ++
    " ORDER BY created_at DESC".toList

/-- Reference: the value that belongs to the placeholder of a predicate, the
pattern `%value%` of its column for a text predicate and the parsed integer
for the quantity predicate. -/
def referenceValue (name part nsn serial : List Char) (quantity : Int)
    (predicate : List Char) : SqlValue :=
  if predicate = "name LIKE ?".toList then
    SqlValue.text ("%".toList ++ ToUtf8 name ++ "%".toList)
  else if predicate = "part_number LIKE ?".toList then
    SqlValue.text ("%".toList ++ ToUtf8 part ++ "%".toList)
  else if predicate = "nsn LIKE ?".toList then
    SqlValue.text ("%".toList ++ ToUtf8 nsn ++ "%".toList)
  else if predicate = "serial_number LIKE ?".toList then
    SqlValue.text ("%".toList ++ ToUtf8 serial ++ "%".toList)
  else if predicate = "quantity = ?".toList then SqlValue.int quantity
  else SqlValue.null

/-- Reference: the patterns of the non-empty text fields, in field order. -/
def referencePatterns (name part nsn serial : List Char) : List (List Char) :=
  (if name = [] then [] else ["%".toList ++ ToUtf8 name ++ "%".toList]) ++
  (if part = [] then [] else ["%".toList ++ ToUtf8 part ++ "%".toList]) ++
  (if nsn = [] then [] else ["%".toList ++ ToUtf8 nsn ++ "%".toList]) ++
  (if serial = [] then [] else ["%".toList ++ ToUtf8 serial ++ "%".toList])

/-- The number of `?` placeholders in a statement text. -/
def placeholderCount (sql : List Char) : Nat :=
  sql.count '?'

/-- Whether an event is a bind call. -/
def Event.isBind : Event → Bool
  | .bind_text _ _ => true
  | .bind_int _ _ => true
  | _ => false

/-- The statement texts handed to `sqlite3_prepare_v2` in a trace. -/
def preparedTexts : List Event → List (List Char)
  | [] => []
  | Event.prepare sql :: rest => sql :: preparedTexts rest
  | _ :: rest => preparedTexts rest

/-- Whether `text` begins with `n`, character for character. -/
def startsWith : List Char → List Char → Bool
  | _, [] => true
  | [], _ :: _ => false
  | t :: text, c :: n => decide (c = t) && startsWith text n

/-- Reference: `text` contains `n` as a literal substring. -/
def containsText (text n : List Char) : Bool :=
  text.tails.any (fun suffix => startsWith suffix n)

/-- Whether `text` begins with `n` up to ASCII letter case. -/
def startsWithFolded : List Char → List Char → Bool
  | _, [] => true
  | [], _ :: _ => false
  | t :: text, c :: n => decide (foldCase c = foldCase t) && startsWithFolded text n

/-- Whether `text` contains `n` as a substring up to ASCII letter case. -/
def containsFolded (text n : List Char) : Bool :=
  text.tails.any (fun suffix => startsWithFolded suffix n)

/-- A sample row. -/
def sampleRow (id : Int) (name : List Char) (quantity : Int) (created_at : List Char) : Row :=
  { id := id, name := name, part_number := "PN-1".toList, nsn := "NSN-1".toList,
    serial_number := "SN-1".toList, quantity := quantity, created_at := created_at }

/-- Reference: a base-10 integer spanning the whole string, digits only. -/
def isPlainDecimal (value : List Char) : Bool :=
  !value.isEmpty && value.all iswdigit

/-- The integer denoted by an optional sign and a run of digits. -/
def signedValue (sign digits : List Char) : Int :=
  if sign = ['-'] then -((digitsValue digits : Nat) : Int) else ((digitsValue digits : Nat) : Int)

/-- The messages written to the status label in a trace, in order. -/
def statusMessages : List Event → List (List Char)
  | [] => []
  | Event.status message :: rest => message :: statusMessages rest
  | _ :: rest => statusMessages rest

/-- The calls on the database in a trace, in order. -/
def databaseCalls (trace : List Event) : List Event :=
  trace.filter Event.isDatabaseCall

/-- Text an edit control can hold: `GetWindowTextW` copies the text of the
control up to its terminating NUL, so no character of it is NUL. -/
def isControlText (text : List Char) : Bool :=
  text.all (fun c => c.toNat != 0)

/-- Whether the four text columns of a row are all non-empty. -/
def Row.hasTextFields (row : Row) : Bool :=
  !row.name.isEmpty && !row.part_number.isEmpty && !row.nsn.isEmpty
    && !row.serial_number.isEmpty

/-- The five values of an item as the form takes them: four texts and the
quantity text. -/
structure ItemFields where
  name : List Char
  part_number : List Char
  nsn : List Char
  serial_number : List Char
  quantity : List Char
deriving DecidableEq, Repr

/-- The user typing the five values of an item into the edit controls. -/
def enterFields (s : AppState) (f : ItemFields) : AppState :=
  { s with name_edit := f.name, part_edit := f.part_number, nsn_edit := f.nsn,
           serial_edit := f.serial_number, quantity_edit := f.quantity }

/-- One insert through the form: the values are typed and Save is pressed while
the clock reads `now`. -/
def saveItem (now : List Char) (f : ItemFields) (s : AppState) : AppState :=
  SaveRecord now (enterFields s f)

/-- The search with no filter, as the Clear button runs it (`ClearInputs`, then
`RefreshResults`). -/
def searchAll (s : AppState) : AppState :=
  RefreshResults (ClearInputs s)

/-- The row that the INSERT of `SaveRecord` writes for the given values. -/
def writtenRow (id : Int) (f : ItemFields) (quantity : Int) (now : List Char) : Row :=
  { id := id, name := ToUtf8 f.name, part_number := ToUtf8 f.part_number, nsn := ToUtf8 f.nsn,
    serial_number := ToUtf8 f.serial_number, quantity := quantity, created_at := now }

/-- Sample values of an item with the given name and quantity text. -/
def sampleFields (name quantity : List Char) : ItemFields :=
  { name := name, part_number := "PN-1".toList, nsn := "NSN-1".toList,
    serial_number := "SN-1".toList, quantity := quantity }

/-! ## Query text -/

/-- Every predicate preceded by ` AND `, concatenated. -/
theorem appendConditions_succ (i : Nat) (conditions : List (List Char)) (query : List Char) :
    appendConditions (i + 1) conditions query
      = query ++ (conditions.map (fun c => " AND ".toList ++ c)).flatten := by
  induction conditions generalizing i query with
  | nil => simp [appendConditions]
  | cons c rest ih =>
    rw [appendConditions, ih]
    simp [List.append_assoc]

theorem intercalate_cons (sep c : List Char) (rest : List (List Char)) :
    List.intercalate sep (c :: rest) = c ++ (rest.map (fun d => sep ++ d)).flatten := by
  induction rest generalizing c with
  | nil => simp [List.intercalate]
  | cons d rest ih =>
    have h := ih d
    simp only [List.intercalate, List.intersperse, List.flatten_cons, List.map_cons] at h ⊢
    rw [h]
    simp [List.append_assoc]

/-- The loop of `RefreshResults` joins the predicates with ` AND `. -/
theorem appendConditions_zero (conditions : List (List Char)) (query : List Char) :
    appendConditions 0 conditions query
      = query ++ List.intercalate " AND ".toList conditions := by
  cases conditions with
  | nil => simp [appendConditions, List.intercalate]
  | cons c rest =>
    rw [appendConditions, appendConditions_succ, intercalate_cons]
    simp [List.append_assoc]

/-- The query text for any vector of predicates. -/
theorem buildQuery_eq (conditions : List (List Char)) :
    buildQuery conditions
      = kSelectHead ++
          (if conditions = [] then []
           else " WHERE ".toList ++ List.intercalate " AND ".toList conditions) ++
          " ORDER BY created_at DESC".toList := by
  unfold buildQuery
  cases conditions with
  | nil => simp
  | cons c rest =>
    simp only [List.isEmpty_cons, Bool.not_false, if_true, appendConditions_zero]
    simp [List.append_assoc]

/-- The predicates pushed by the four text blocks. -/
theorem collectTextFilters_conditions (name part nsn serial : List Char) :
    (collectTextFilters name part nsn serial).1
      = (if name = [] then [] else [kNameCondition]) ++
        (if part = [] then [] else [kPartCondition]) ++
        (if nsn = [] then [] else [kNsnCondition]) ++
        (if serial = [] then [] else [kSerialCondition]) := by
  cases name <;> cases part <;> cases nsn <;> cases serial <;>
    simp [collectTextFilters, pushTextFilter]

/-- The patterns pushed by the four text blocks. -/
theorem collectTextFilters_parameters (name part nsn serial : List Char) :
    (collectTextFilters name part nsn serial).2
      = (if name = [] then [] else ["%".toList ++ ToUtf8 name ++ "%".toList]) ++
        (if part = [] then [] else ["%".toList ++ ToUtf8 part ++ "%".toList]) ++
        (if nsn = [] then [] else ["%".toList ++ ToUtf8 nsn ++ "%".toList]) ++
        (if serial = [] then [] else ["%".toList ++ ToUtf8 serial ++ "%".toList]) := by
  cases name <;> cases part <;> cases nsn <;> cases serial <;>
    simp [collectTextFilters, pushTextFilter]

/-- What `collectConditions` returns, by cases on the quantity text. -/
theorem collectConditions_eq (name part nsn serial quantity : List Char) :
    collectConditions name part nsn serial quantity
      = if quantity = [] then
          some ((collectTextFilters name part nsn serial).1,
                (collectTextFilters name part nsn serial).2, 0)
        else
          (ParseInt quantity).map (fun v =>
            ((collectTextFilters name part nsn serial).1 ++ [kQuantityCondition],
             (collectTextFilters name part nsn serial).2, v)) := by
  unfold collectConditions
  cases quantity with
  | nil => simp
  | cons c cs =>
    simp only [List.isEmpty_cons, Bool.not_false, if_true]
    cases ParseInt (c :: cs) <;> simp

/-- The predicates of a search that passes validation are the reference
predicates. -/
theorem collectConditions_reference (name part nsn serial quantity : List Char)
    (r : List (List Char) × List (List Char) × Int)
    (h : collectConditions name part nsn serial quantity = some r) :
    r.1 = referencePredicates name part nsn serial quantity := by
  rw [collectConditions_eq] at h
  unfold referencePredicates
  by_cases hq : quantity = []
  · simp only [hq, if_true, Option.some.injEq] at h
    subst h
    simp only [collectTextFilters_conditions, hq, if_true, List.append_nil]
    rfl
  · rw [if_neg hq] at h
    cases hp : ParseInt quantity with
    | none => rw [hp] at h; simp at h
    | some v =>
      rw [hp] at h
      simp only [Option.map_some', Option.some.injEq] at h
      subst h
      simp only [collectTextFilters_conditions, hq, if_false]
      rfl

/-- The trace of a search that passes validation. -/
theorem RefreshResults_trace (s : AppState) (conditions parameters : List (List Char))
    (v : Int)
    (h : collectConditions s.name_edit s.part_edit s.nsn_edit s.serial_edit s.quantity_edit
          = some (conditions, parameters, v)) :
    (RefreshResults s).trace
      = s.trace ++ [Event.prepare (buildQuery conditions)]
          ++ (searchBinds parameters s.quantity_edit v).map bindEvent
          ++ List.replicate
              ((selectItems s.db conditions (searchBinds parameters s.quantity_edit v)).length + 1)
              Event.step
          ++ [Event.finalize]
          ++ [Event.status
                (to_wstring
                    ((selectItems s.db conditions
                        (searchBinds parameters s.quantity_edit v)).length : Int)
                  ++ " record(s) found.".toList)] := by
  simp [RefreshResults, h, SetStatus]

/-- A search passes validation when the quantity text is empty or parses. -/
theorem collectConditions_isSome (name part nsn serial quantity : List Char)
    (h : quantity = [] ∨ (ParseInt quantity).isSome = true) :
    ∃ r, collectConditions name part nsn serial quantity = some r := by
  rw [collectConditions_eq]
  by_cases hq : quantity = []
  · simp [hq]
  · rcases h with h | h
    · exact absurd h hq
    · obtain ⟨v, hv⟩ := Option.isSome_iff_exists.mp h
      simp [hq, hv]

/-- Membership in the contribution of one field. -/
theorem mem_fieldPredicate (c d field : List Char) :
    c ∈ (if field = [] then [] else [d]) ↔ field ≠ [] ∧ c = d := by
  by_cases h : field = [] <;> simp [h]

/-- Which fields contribute a reference predicate. -/
theorem referencePredicates_mem (name part nsn serial quantity : List Char) :
    (kNameCondition ∈ referencePredicates name part nsn serial quantity ↔ name ≠ []) ∧
    (kPartCondition ∈ referencePredicates name part nsn serial quantity ↔ part ≠ []) ∧
    (kNsnCondition ∈ referencePredicates name part nsn serial quantity ↔ nsn ≠ []) ∧
    (kSerialCondition ∈ referencePredicates name part nsn serial quantity ↔ serial ≠ []) ∧
    (kQuantityCondition ∈ referencePredicates name part nsn serial quantity ↔ quantity ≠ []) := by
  have n1 : kNameCondition = "name LIKE ?".toList := rfl
  have n2 : kNameCondition ≠ "part_number LIKE ?".toList := by decide
  have n3 : kNameCondition ≠ "nsn LIKE ?".toList := by decide
  have n4 : kNameCondition ≠ "serial_number LIKE ?".toList := by decide
  have n5 : kNameCondition ≠ "quantity = ?".toList := by decide
  have p1 : kPartCondition ≠ "name LIKE ?".toList := by decide
  have p2 : kPartCondition = "part_number LIKE ?".toList := rfl
  have p3 : kPartCondition ≠ "nsn LIKE ?".toList := by decide
  have p4 : kPartCondition ≠ "serial_number LIKE ?".toList := by decide
  have p5 : kPartCondition ≠ "quantity = ?".toList := by decide
  have m1 : kNsnCondition ≠ "name LIKE ?".toList := by decide
  have m2 : kNsnCondition ≠ "part_number LIKE ?".toList := by decide
  have m3 : kNsnCondition = "nsn LIKE ?".toList := rfl
  have m4 : kNsnCondition ≠ "serial_number LIKE ?".toList := by decide
  have m5 : kNsnCondition ≠ "quantity = ?".toList := by decide
  have s1 : kSerialCondition ≠ "name LIKE ?".toList := by decide
  have s2 : kSerialCondition ≠ "part_number LIKE ?".toList := by decide
  have s3 : kSerialCondition ≠ "nsn LIKE ?".toList := by decide
  have s4 : kSerialCondition = "serial_number LIKE ?".toList := rfl
  have s5 : kSerialCondition ≠ "quantity = ?".toList := by decide
  have q1 : kQuantityCondition ≠ "name LIKE ?".toList := by decide
  have q2 : kQuantityCondition ≠ "part_number LIKE ?".toList := by decide
  have q3 : kQuantityCondition ≠ "nsn LIKE ?".toList := by decide
  have q4 : kQuantityCondition ≠ "serial_number LIKE ?".toList := by decide
  have q5 : kQuantityCondition = "quantity = ?".toList := rfl
  unfold referencePredicates
  simp only [List.mem_append, mem_fieldPredicate]
  refine ⟨?_, ?_, ?_, ?_, ?_⟩
  · simp only [n2, n3, n4, n5, and_false, or_false]; simp [n1]
  · simp only [p1, p3, p4, p5, and_false, or_false, false_or]; simp [p2]
  · simp only [m1, m2, m4, m5, and_false, or_false, false_or]; simp [m3]
  · simp only [s1, s2, s3, s5, and_false, or_false, false_or]; simp [s4]
  · simp only [q1, q2, q3, q4, and_false, or_false, false_or]; simp [q5]

/-- C1: for every filter whose quantity is empty or parses, the query text
that `RefreshResults` builds and prepares equals the reference definition (the
fixed SELECT, then ` WHERE ` and the predicates of exactly the non-empty fields
joined by ` AND `, no WHERE clause when all fields are empty, then
` ORDER BY created_at DESC`); a field contributes its predicate if and only if
it is not the empty string. -/
theorem query_text_matches_reference (s : AppState)
    (h : s.quantity_edit = [] ∨ (ParseInt s.quantity_edit).isSome = true) :
    ∃ conditions parameters quantity_value,
      collectConditions s.name_edit s.part_edit s.nsn_edit s.serial_edit s.quantity_edit
        = some (conditions, parameters, quantity_value) ∧
      buildQuery conditions
        = referenceQuery s.name_edit s.part_edit s.nsn_edit s.serial_edit s.quantity_edit ∧
      (∃ rest, (RefreshResults s).trace
          = s.trace ++
              Event.prepare
                (referenceQuery s.name_edit s.part_edit s.nsn_edit s.serial_edit
                  s.quantity_edit) :: rest ∧
          ∀ e ∈ rest, ∀ sql, e ≠ Event.prepare sql) ∧
      (kNameCondition ∈ conditions ↔ s.name_edit ≠ []) ∧
      (kPartCondition ∈ conditions ↔ s.part_edit ≠ []) ∧
      (kNsnCondition ∈ conditions ↔ s.nsn_edit ≠ []) ∧
      (kSerialCondition ∈ conditions ↔ s.serial_edit ≠ []) ∧
      (kQuantityCondition ∈ conditions ↔ s.quantity_edit ≠ []) := by
  obtain ⟨⟨conditions, parameters, v⟩, hr⟩ :=
    collectConditions_isSome s.name_edit s.part_edit s.nsn_edit s.serial_edit s.quantity_edit h
  have hc := collectConditions_reference _ _ _ _ _ _ hr
  simp only at hc
  have hb : buildQuery conditions
      = referenceQuery s.name_edit s.part_edit s.nsn_edit s.serial_edit s.quantity_edit := by
    rw [buildQuery_eq, hc]
    rfl
  refine ⟨conditions, parameters, v, hr, hb, ?_, ?_⟩
  · refine ⟨(searchBinds parameters s.quantity_edit v).map bindEvent
          ++ List.replicate
              ((selectItems s.db conditions (searchBinds parameters s.quantity_edit v)).length + 1)
              Event.step
          ++ [Event.finalize]
          ++ [Event.status
                (to_wstring
                    ((selectItems s.db conditions
                        (searchBinds parameters s.quantity_edit v)).length : Int)
                  ++ " record(s) found.".toList)], ?_, ?_⟩
    · rw [RefreshResults_trace s conditions parameters v hr, hb]
      simp only [List.append_assoc, List.singleton_append, List.cons_append, List.nil_append]
    · intro e he sql hsql
      subst hsql
      simp only [List.mem_append, List.mem_map, List.mem_replicate, List.mem_singleton,
        reduceCtorEq, and_false, or_false] at he
      obtain ⟨b, _, hb2⟩ := he
      unfold bindEvent at hb2
      split at hb2 <;> cases hb2
  · rw [hc]
    exact referencePredicates_mem _ _ _ _ _

/-- C1 at a filter with a whitespace-only name and quantity `5`: the blank
name contributes its predicate. -/
theorem query_text_matches_reference_witness :
    ∃ conditions parameters quantity_value,
      collectConditions " ".toList [] [] [] "5".toList
        = some (conditions, parameters, quantity_value) ∧
      buildQuery conditions
        = ("SELECT id, name, part_number, nsn, serial_number, quantity, created_at FROM items"
            ++ " WHERE name LIKE ? AND quantity = ? ORDER BY created_at DESC").toList ∧
      (∃ rest, (RefreshResults (mkState [] " ".toList [] [] [] "5".toList)).trace
          = [] ++
              Event.prepare
                (referenceQuery " ".toList [] [] [] "5".toList) :: rest ∧
          ∀ e ∈ rest, ∀ sql, e ≠ Event.prepare sql) ∧
      (kNameCondition ∈ conditions ↔ " ".toList ≠ []) ∧
      (kPartCondition ∈ conditions ↔ ([] : List Char) ≠ []) ∧
      (kNsnCondition ∈ conditions ↔ ([] : List Char) ≠ []) ∧
      (kSerialCondition ∈ conditions ↔ ([] : List Char) ≠ []) ∧
      (kQuantityCondition ∈ conditions ↔ "5".toList ≠ []) :=
  query_text_matches_reference (mkState [] " ".toList [] [] [] "5".toList) (by decide)

/-! ## Binding order -/

/-- The bind loop: indices count up from the start index, values are the
patterns in order, and the returned index is the next free one. -/
theorem bindParameters_spec (parameters : List (List Char)) (index : Int) :
    (bindParameters parameters index).1.map Prod.fst
        = (List.range parameters.length).map (fun i : Nat => index + (i : Int)) ∧
    (bindParameters parameters index).1.map Prod.snd = parameters.map SqlValue.text ∧
    (bindParameters parameters index).2 = index + (parameters.length : Int) := by
  induction parameters generalizing index with
  | nil => simp [bindParameters]
  | cons value rest ih =>
    obtain ⟨h1, h2, h3⟩ := ih (index + 1)
    refine ⟨?_, ?_, ?_⟩
    · simp only [bindParameters, List.map_cons, h1, List.length_cons, List.range_succ_eq_map,
        List.map_map, Nat.cast_zero, add_zero, List.cons.injEq, true_and]
      apply List.map_congr_left
      intro i _
      simp only [Function.comp, Nat.cast_succ]
      ring
    · simp only [bindParameters, List.map_cons, h2]
    · simp only [bindParameters, h3, List.length_cons, Nat.cast_succ]
      ring

/-- The value that belongs to each of the five predicates. -/
theorem referenceValue_predicates (name part nsn serial : List Char) (v : Int) :
    referenceValue name part nsn serial v kNameCondition
        = SqlValue.text ("%".toList ++ ToUtf8 name ++ "%".toList) ∧
    referenceValue name part nsn serial v kPartCondition
        = SqlValue.text ("%".toList ++ ToUtf8 part ++ "%".toList) ∧
    referenceValue name part nsn serial v kNsnCondition
        = SqlValue.text ("%".toList ++ ToUtf8 nsn ++ "%".toList) ∧
    referenceValue name part nsn serial v kSerialCondition
        = SqlValue.text ("%".toList ++ ToUtf8 serial ++ "%".toList) ∧
    referenceValue name part nsn serial v kQuantityCondition = SqlValue.int v :=
  ⟨rfl, rfl, rfl, rfl, rfl⟩

/-- The patterns of the text blocks are the reference patterns. -/
theorem collectTextFilters_patterns (name part nsn serial : List Char) :
    (collectTextFilters name part nsn serial).2 = referencePatterns name part nsn serial := by
  rw [collectTextFilters_parameters]
  rfl

/-- Each pattern of the text blocks belongs to the column of its predicate. -/
theorem collectTextFilters_values (name part nsn serial : List Char) (v : Int) :
    (collectTextFilters name part nsn serial).2.map SqlValue.text
      = (collectTextFilters name part nsn serial).1.map
          (referenceValue name part nsn serial v) := by
  rw [collectTextFilters_parameters, collectTextFilters_conditions]
  by_cases a : name = [] <;> by_cases b : part = [] <;> by_cases c : nsn = [] <;>
    by_cases d : serial = [] <;>
    simp only [a, b, c, d, if_true, if_false, List.nil_append, List.append_nil,
      List.cons_append, List.map_cons, List.map_nil] <;> rfl

set_option maxRecDepth 100000 in
/-- The query text holds one placeholder per predicate. -/
theorem placeholderCount_buildQuery (name part nsn serial quantity : List Char) :
    placeholderCount (buildQuery (referencePredicates name part nsn serial quantity))
      = (referencePredicates name part nsn serial quantity).length := by
  unfold referencePredicates
  by_cases a : name = [] <;> by_cases b : part = [] <;> by_cases c : nsn = [] <;>
    by_cases d : serial = [] <;> by_cases e : quantity = [] <;>
    simp only [a, b, c, d, e, if_true, if_false, List.nil_append, List.append_nil,
      List.cons_append] <;> rfl

/-- The bind calls of a search, from the predicates and patterns collected:
indices `1 ..`, one value per predicate, each the value of its column. -/
theorem searchBinds_spec (name part nsn serial quantity : List Char)
    (conditions parameters : List (List Char)) (v : Int)
    (h : collectConditions name part nsn serial quantity = some (conditions, parameters, v)) :
    (searchBinds parameters quantity v).map Prod.fst
        = (List.range conditions.length).map (fun i : Nat => (i : Int) + 1) ∧
    (searchBinds parameters quantity v).map Prod.snd
        = conditions.map (referenceValue name part nsn serial v) ∧
    parameters = referencePatterns name part nsn serial ∧
    (quantity ≠ [] →
      searchBinds parameters quantity v
        = (bindParameters parameters 1).1 ++ [((parameters.length : Int) + 1, SqlValue.int v)] ∧
      conditions.length = parameters.length + 1 ∧
      ParseInt quantity = some v) := by
  rw [collectConditions_eq] at h
  have hlen : (collectTextFilters name part nsn serial).1.length
      = (collectTextFilters name part nsn serial).2.length := by
    have := congrArg List.length (collectTextFilters_values name part nsn serial 0)
    simpa using this.symm
  by_cases hq : quantity = []
  · rw [if_pos hq] at h
    simp only [Option.some.injEq, Prod.mk.injEq] at h
    obtain ⟨hc, hp, _⟩ := h
    subst hc hp
    obtain ⟨b1, b2, _⟩ := bindParameters_spec (collectTextFilters name part nsn serial).2 1
    refine ⟨?_, ?_, collectTextFilters_patterns _ _ _ _, fun hne => absurd hq hne⟩
    · simp only [searchBinds, hq, List.isEmpty_nil, Bool.not_true, Bool.false_eq_true,
        if_false, b1, hlen]
      apply List.map_congr_left
      intro i _
      ring
    · simp only [searchBinds, hq, List.isEmpty_nil, Bool.not_true, Bool.false_eq_true,
        if_false, b2]
      exact collectTextFilters_values name part nsn serial v
  · rw [if_neg hq] at h
    cases hp : ParseInt quantity with
    | none => rw [hp] at h; simp at h
    | some w =>
      rw [hp] at h
      simp only [Option.map_some', Option.some.injEq, Prod.mk.injEq] at h
      obtain ⟨hc, hp2, hv⟩ := h
      subst hc hp2 hv
      obtain ⟨b1, b2, b3⟩ := bindParameters_spec (collectTextFilters name part nsn serial).2 1
      have hne : (!quantity.isEmpty) = true := by
        cases quantity with
        | nil => exact absurd rfl hq
        | cons c cs => rfl
      have hsb : searchBinds (collectTextFilters name part nsn serial).2 quantity w
          = (bindParameters (collectTextFilters name part nsn serial).2 1).1
              ++ [(((collectTextFilters name part nsn serial).2.length : Int) + 1,
                    SqlValue.int w)] := by
        simp only [searchBinds, hne, if_true, b3]
        rw [add_comm]
      refine ⟨?_, ?_, collectTextFilters_patterns _ _ _ _, fun _ => ⟨hsb, ?_, rfl⟩⟩
      · rw [hsb]
        simp only [List.map_append, b1, List.map_cons, List.map_nil, List.length_append,
          List.length_singleton, List.range_succ, hlen]
        congr 1
        apply List.map_congr_left
        intro i _
        ring
      · rw [hsb]
        simp only [List.map_append, b2, List.map_cons, List.map_nil,
          (referenceValue_predicates name part nsn serial w).2.2.2.2]
        rw [collectTextFilters_values name part nsn serial w]
      · simp only [List.length_append, List.length_singleton, hlen]

/-- C2: for every filter that passes validation, the values `RefreshResults`
binds line up with the `?` placeholders of the query text it prepares: as many
bind calls as placeholders, at indices 1, 2, ... in order, the i-th value being
the value of the column of the i-th predicate; the text patterns come in the
order name, part_number, nsn, serial_number, and a supplied quantity is bound
last, as an integer, at index (number of supplied text fields + 1). -/
theorem binds_line_up_with_placeholders (s : AppState)
    (conditions parameters : List (List Char)) (v : Int)
    (h : collectConditions s.name_edit s.part_edit s.nsn_edit s.serial_edit s.quantity_edit
          = some (conditions, parameters, v)) :
    (∃ rest, (RefreshResults s).trace
        = s.trace ++ Event.prepare (buildQuery conditions) ::
            ((searchBinds parameters s.quantity_edit v).map bindEvent ++ rest) ∧
        ∀ e ∈ rest, e.isBind = false) ∧
    (searchBinds parameters s.quantity_edit v).length = placeholderCount (buildQuery conditions) ∧
    (searchBinds parameters s.quantity_edit v).map Prod.fst
        = (List.range (placeholderCount (buildQuery conditions))).map
            (fun i : Nat => (i : Int) + 1) ∧
    (searchBinds parameters s.quantity_edit v).map Prod.snd
        = conditions.map
            (referenceValue s.name_edit s.part_edit s.nsn_edit s.serial_edit v) ∧
    parameters = referencePatterns s.name_edit s.part_edit s.nsn_edit s.serial_edit ∧
    (s.quantity_edit ≠ [] →
      searchBinds parameters s.quantity_edit v
        = (bindParameters parameters 1).1 ++ [((parameters.length : Int) + 1, SqlValue.int v)] ∧
      ParseInt s.quantity_edit = some v) := by
  obtain ⟨h1, h2, h3, h4⟩ := searchBinds_spec _ _ _ _ _ _ _ _ h
  have hc := collectConditions_reference _ _ _ _ _ _ h
  simp only at hc
  have hcount : placeholderCount (buildQuery conditions) = conditions.length := by
    rw [hc]
    exact placeholderCount_buildQuery _ _ _ _ _
  refine ⟨?_, ?_, ?_, h2, h3, fun hne => ⟨(h4 hne).1, (h4 hne).2.2⟩⟩
  · refine ⟨List.replicate
              ((selectItems s.db conditions (searchBinds parameters s.quantity_edit v)).length + 1)
              Event.step
          ++ [Event.finalize]
          ++ [Event.status
                (to_wstring
                    ((selectItems s.db conditions
                        (searchBinds parameters s.quantity_edit v)).length : Int)
                  ++ " record(s) found.".toList)], ?_, ?_⟩
    · rw [RefreshResults_trace s conditions parameters v h]
      simp only [List.append_assoc, List.singleton_append, List.cons_append, List.nil_append]
    · intro e he
      simp only [List.mem_append, List.mem_replicate, List.mem_singleton] at he
      rcases he with (⟨_, he⟩ | he) | he <;> subst he <;> rfl
  · have := congrArg List.length h1
    simpa [hcount] using this
  · rw [hcount]
    exact h1

/-- C2 at the filter name = `a`, serial_number = `b`, quantity = `5`: three
binds at indices 1, 2, 3, the integer 5 last. -/
theorem binds_line_up_with_placeholders_witness :
    (∃ rest, (RefreshResults (mkState [] "a".toList [] [] "b".toList "5".toList)).trace
        = [] ++ Event.prepare
            (buildQuery [kNameCondition, kSerialCondition, kQuantityCondition]) ::
            ((searchBinds ["%a%".toList, "%b%".toList] "5".toList 5).map bindEvent ++ rest) ∧
        ∀ e ∈ rest, e.isBind = false) ∧
    (searchBinds ["%a%".toList, "%b%".toList] "5".toList 5).length
        = placeholderCount (buildQuery [kNameCondition, kSerialCondition, kQuantityCondition]) ∧
    (searchBinds ["%a%".toList, "%b%".toList] "5".toList 5).map Prod.fst
        = (List.range
            (placeholderCount
              (buildQuery [kNameCondition, kSerialCondition, kQuantityCondition]))).map
            (fun i : Nat => (i : Int) + 1) ∧
    (searchBinds ["%a%".toList, "%b%".toList] "5".toList 5).map Prod.snd
        = [kNameCondition, kSerialCondition, kQuantityCondition].map
            (referenceValue "a".toList [] [] "b".toList 5) ∧
    ["%a%".toList, "%b%".toList] = referencePatterns "a".toList [] [] "b".toList ∧
    ("5".toList ≠ [] →
      searchBinds ["%a%".toList, "%b%".toList] "5".toList 5
        = (bindParameters ["%a%".toList, "%b%".toList] 1).1
            ++ [(((["%a%".toList, "%b%".toList] : List (List Char)).length : Int) + 1,
                  SqlValue.int 5)] ∧
      ParseInt "5".toList = some 5) :=
  binds_line_up_with_placeholders (mkState [] "a".toList [] [] "b".toList "5".toList)
    [kNameCondition, kSerialCondition, kQuantityCondition] ["%a%".toList, "%b%".toList] 5
    (by decide)

/-! ## The query text is independent of the field values -/

theorem preparedTexts_append (a b : List Event) :
    preparedTexts (a ++ b) = preparedTexts a ++ preparedTexts b := by
  induction a with
  | nil => rfl
  | cons e rest ih => cases e <;> simp [preparedTexts, ih]

/-- Bind calls carry no statement text. -/
theorem preparedTexts_binds (binds : List (Int × SqlValue)) :
    preparedTexts (binds.map bindEvent) = [] := by
  induction binds with
  | nil => rfl
  | cons b rest ih =>
    obtain ⟨i, value⟩ := b
    cases value <;> simpa [bindEvent, preparedTexts] using ih

theorem preparedTexts_steps (n : Nat) :
    preparedTexts (List.replicate n Event.step) = [] := by
  induction n with
  | zero => rfl
  | succ n ih => simpa [List.replicate_succ, preparedTexts] using ih

/-- A search that passes validation prepares exactly one statement text. -/
theorem RefreshResults_preparedTexts (s : AppState) (conditions parameters : List (List Char))
    (v : Int)
    (h : collectConditions s.name_edit s.part_edit s.nsn_edit s.serial_edit s.quantity_edit
          = some (conditions, parameters, v)) :
    preparedTexts (RefreshResults s).trace
      = preparedTexts s.trace ++ [buildQuery conditions] := by
  rw [RefreshResults_trace s conditions parameters v h]
  simp [preparedTexts_append, preparedTexts_binds, preparedTexts_steps, preparedTexts]

/-- The reference predicates depend only on which fields are empty. -/
theorem referencePredicates_congr (n p m r q n2 p2 m2 r2 q2 : List Char)
    (hn : n = [] ↔ n2 = []) (hp : p = [] ↔ p2 = []) (hm : m = [] ↔ m2 = [])
    (hr : r = [] ↔ r2 = []) (hq : q = [] ↔ q2 = []) :
    referencePredicates n p m r q = referencePredicates n2 p2 m2 r2 q2 := by
  unfold referencePredicates
  simp only [hn, hp, hm, hr, hq]

/-- C3: the query text never contains user input.  Two filters with the same
set of non-empty fields that both pass validation make `RefreshResults` prepare
the same single statement text, whatever characters the values contain; the
values appear in bind calls only. -/
theorem query_text_independent_of_values (s t : AppState)
    (cs ps ct pt : List (List Char)) (vs vt : Int)
    (hs : collectConditions s.name_edit s.part_edit s.nsn_edit s.serial_edit s.quantity_edit
          = some (cs, ps, vs))
    (ht : collectConditions t.name_edit t.part_edit t.nsn_edit t.serial_edit t.quantity_edit
          = some (ct, pt, vt))
    (hn : s.name_edit = [] ↔ t.name_edit = [])
    (hp : s.part_edit = [] ↔ t.part_edit = [])
    (hm : s.nsn_edit = [] ↔ t.nsn_edit = [])
    (hr : s.serial_edit = [] ↔ t.serial_edit = [])
    (hq : s.quantity_edit = [] ↔ t.quantity_edit = []) :
    buildQuery cs = buildQuery ct ∧
    preparedTexts (RefreshResults s).trace = preparedTexts s.trace ++ [buildQuery cs] ∧
    preparedTexts (RefreshResults t).trace = preparedTexts t.trace ++ [buildQuery cs] := by
  have h1 := collectConditions_reference _ _ _ _ _ _ hs
  have h2 := collectConditions_reference _ _ _ _ _ _ ht
  simp only at h1 h2
  have hc : cs = ct := by
    rw [h1, h2]
    exact referencePredicates_congr _ _ _ _ _ _ _ _ _ _ hn hp hm hr hq
  refine ⟨by rw [hc], RefreshResults_preparedTexts s cs ps vs hs, ?_⟩
  rw [hc]
  exact RefreshResults_preparedTexts t ct pt vt ht

/-- C3 at a plain name and at a name made of quotes, wildcards, a semicolon and
SQL keywords: the same statement text is prepared. -/
theorem query_text_independent_of_values_witness :
    buildQuery [kNameCondition] = buildQuery [kNameCondition] ∧
    preparedTexts (RefreshResults (mkState [] "a".toList [] [] [] [])).trace
      = preparedTexts (mkState [] "a".toList [] [] [] []).trace
          ++ [buildQuery [kNameCondition]] ∧
    preparedTexts
        (RefreshResults (mkState [] "%_'x; DROP TABLE items; --".toList [] [] [] [])).trace
      = preparedTexts (mkState [] "%_'x; DROP TABLE items; --".toList [] [] [] []).trace
          ++ [buildQuery [kNameCondition]] :=
  query_text_independent_of_values
    (mkState [] "a".toList [] [] [] [])
    (mkState [] "%_'x; DROP TABLE items; --".toList [] [] [] [])
    [kNameCondition] ["%a%".toList] [kNameCondition] ["%%_'x; DROP TABLE items; --%".toList] 0 0
    (by decide) (by decide) (by decide) (by decide) (by decide) (by decide) (by decide)

/-! ## Invalid quantity filter -/

/-- C5: for every filter whose quantity text is non-empty and does not parse,
whatever the other four fields hold, `RefreshResults` only sets the status
`Quantity must be a whole number.` and returns: it makes no call on the
database (no prepare, bind or step), and leaves the table and the list view as
they were.  The texts `abc` and `5 ` are such quantities. -/
theorem invalid_quantity_no_database_access (s : AppState)
    (hne : s.quantity_edit ≠ []) (hparse : ParseInt s.quantity_edit = none) :
    RefreshResults s = SetStatus s "Quantity must be a whole number.".toList ∧
    (RefreshResults s).trace
      = s.trace ++ [Event.status "Quantity must be a whole number.".toList] ∧
    (∀ e ∈ (RefreshResults s).trace.drop s.trace.length, e.isDatabaseCall = false) ∧
    (RefreshResults s).db = s.db ∧
    (RefreshResults s).results_view = s.results_view ∧
    ParseInt "abc".toList = none ∧ ParseInt "5 ".toList = none := by
  have hc : collectConditions s.name_edit s.part_edit s.nsn_edit s.serial_edit s.quantity_edit
      = none := by
    rw [collectConditions_eq, if_neg hne, hparse]
    rfl
  have hr : RefreshResults s = SetStatus s "Quantity must be a whole number.".toList := by
    simp only [RefreshResults, hc]
  refine ⟨hr, ?_, ?_, ?_, ?_, by decide, by decide⟩
  · rw [hr]; rfl
  · rw [hr]
    intro e he
    simp only [SetStatus, List.drop_left, List.mem_singleton] at he
    subst he
    rfl
  · rw [hr]; rfl
  · rw [hr]; rfl

/-- C5 at the quantity `5 ` with the other four fields filled. -/
theorem invalid_quantity_no_database_access_witness :
    RefreshResults (mkState [] "a".toList "b".toList "c".toList "d".toList "5 ".toList)
      = SetStatus (mkState [] "a".toList "b".toList "c".toList "d".toList "5 ".toList)
          "Quantity must be a whole number.".toList ∧
    (RefreshResults
        (mkState [] "a".toList "b".toList "c".toList "d".toList "5 ".toList)).trace
      = [] ++ [Event.status "Quantity must be a whole number.".toList] ∧
    (∀ e ∈ (RefreshResults
              (mkState [] "a".toList "b".toList "c".toList "d".toList "5 ".toList)).trace.drop 0,
        e.isDatabaseCall = false) ∧
    (RefreshResults (mkState [] "a".toList "b".toList "c".toList "d".toList "5 ".toList)).db
      = (mkState [] "a".toList "b".toList "c".toList "d".toList "5 ".toList).db ∧
    (RefreshResults
        (mkState [] "a".toList "b".toList "c".toList "d".toList "5 ".toList)).results_view
      = [] ∧
    ParseInt "abc".toList = none ∧ ParseInt "5 ".toList = none :=
  invalid_quantity_no_database_access
    (mkState [] "a".toList "b".toList "c".toList "d".toList "5 ".toList)
    (by decide) (by decide)

/-! ## Search by name -/

/-- Ordering the rows keeps exactly the same rows. -/
theorem insertByCreatedDesc_perm (row : Row) (rows : List Row) :
    (insertByCreatedDesc row rows).Perm (row :: rows) := by
  induction rows with
  | nil => exact List.Perm.refl _
  | cons r rest ih =>
    unfold insertByCreatedDesc
    split
    · exact (List.Perm.cons r ih).trans (List.Perm.swap row r rest)
    · exact List.Perm.refl _

theorem orderByCreatedDesc_perm (rows : List Row) : (orderByCreatedDesc rows).Perm rows := by
  induction rows with
  | nil => exact List.Perm.refl _
  | cons r rest ih =>
    unfold orderByCreatedDesc
    exact (insertByCreatedDesc_perm r _).trans (List.Perm.cons r ih)

/-- The rows a SELECT returns are the rows of the table that satisfy the WHERE
clause. -/
theorem mem_selectItems (db : Database) (conditions : List (List Char))
    (binds : List (Int × SqlValue)) (r : Row) :
    r ∈ selectItems db conditions binds ↔ r ∈ db.items ∧ whereHolds conditions binds 1 r = true := by
  unfold selectItems
  rw [(orderByCreatedDesc_perm _).mem_iff, List.mem_filter]

/-- A pattern that is a lone `%` matches every text. -/
theorem likeMatch_percent (text : List Char) : likeMatch ['%'] text = true := by
  simp only [likeMatch, if_true, List.any_eq_true]
  exact ⟨[], by simp, rfl⟩

/-- A pattern without wildcard followed by `%` matches the texts that begin
with it, up to ASCII letter case. -/
theorem likeMatch_literal_percent (n text : List Char)
    (hn : ∀ c ∈ n, c ≠ '%' ∧ c ≠ '_') :
    likeMatch (n ++ ['%']) text = startsWithFolded text n := by
  induction n generalizing text with
  | nil =>
    rw [List.nil_append, likeMatch_percent]
    cases text <;> rfl
  | cons c rest ih =>
    have hc := hn c (List.mem_cons_self _ _)
    have hrest : ∀ d ∈ rest, d ≠ '%' ∧ d ≠ '_' := fun d hd => hn d (List.mem_cons_of_mem _ hd)
    cases text with
    | nil => simp [likeMatch, hc.1, startsWithFolded]
    | cons t text =>
      have h := ih text hrest
      simp only [List.cons_append, likeMatch, hc.1, hc.2, if_false, decide_False,
        Bool.false_or, startsWithFolded]
      rw [← h]
      rfl

/-- The pattern `%n%` for a wildcard-free `n` matches the texts that contain `n`
up to ASCII letter case. -/
theorem likeMatch_contains (n text : List Char) (hn : ∀ c ∈ n, c ≠ '%' ∧ c ≠ '_') :
    likeMatch ("%".toList ++ n ++ "%".toList) text = containsFolded text n := by
  have hp : "%".toList ++ n ++ "%".toList = '%' :: (n ++ ['%']) := rfl
  rw [hp]
  simp only [likeMatch, if_true, containsFolded]
  congr 1
  funext suffix
  exact likeMatch_literal_percent n suffix hn

/-- Beginning with `n` up to case, as an equation on texts. -/
theorem startsWithFolded_iff (text n : List Char) :
    startsWithFolded text n = true ↔
      ∃ w v, text = w ++ v ∧ w.map foldCase = n.map foldCase := by
  induction n generalizing text with
  | nil =>
    simp only [startsWithFolded, List.map_nil, List.map_eq_nil_iff, true_iff]
    exact ⟨[], text, rfl, rfl⟩
  | cons c rest ih =>
    cases text with
    | nil =>
      simp only [startsWithFolded, Bool.false_eq_true, false_iff]
      rintro ⟨w, v, h1, h2⟩
      have hw : w = [] := (List.append_eq_nil.mp h1.symm).1
      subst hw
      simp at h2
    | cons t text =>
      simp only [startsWithFolded, Bool.and_eq_true, decide_eq_true_eq, ih text]
      constructor
      · rintro ⟨hct, w, v, h1, h2⟩
        exact ⟨t :: w, v, by rw [h1]; rfl, by simp [h2, hct]⟩
      · rintro ⟨w, v, h1, h2⟩
        cases w with
        | nil => simp at h2
        | cons a w =>
          simp only [List.cons_append, List.cons.injEq, List.map_cons] at h1 h2
          obtain ⟨rfl, h1⟩ := h1
          exact ⟨h2.1.symm, w, v, h1, h2.2⟩

/-- Containing `n` up to case, as an equation on texts. -/
theorem containsFolded_iff (text n : List Char) :
    containsFolded text n = true ↔
      ∃ u w v, text = u ++ w ++ v ∧ w.map foldCase = n.map foldCase := by
  simp only [containsFolded, List.any_eq_true, List.mem_tails, startsWithFolded_iff]
  constructor
  · rintro ⟨suffix, ⟨u, hu⟩, w, v, h1, h2⟩
    exact ⟨u, w, v, by rw [← hu, h1, List.append_assoc], h2⟩
  · rintro ⟨u, w, v, h1, h2⟩
    exact ⟨w ++ v, ⟨u, by rw [h1, List.append_assoc]⟩, w, v, rfl, h2⟩

/-- Beginning with `n`, as an equation on texts. -/
theorem startsWith_iff (text n : List Char) :
    startsWith text n = true ↔ ∃ v, text = n ++ v := by
  induction n generalizing text with
  | nil => simp [startsWith]
  | cons c rest ih =>
    cases text with
    | nil => simp [startsWith]
    | cons t text =>
      simp only [startsWith, Bool.and_eq_true, decide_eq_true_eq, ih text, List.cons_append,
        List.cons.injEq]
      constructor
      · rintro ⟨hct, v, hv⟩
        exact ⟨v, hct.symm, hv⟩
      · rintro ⟨v, hct, hv⟩
        exact ⟨hct.symm, v, hv⟩

/-- The reference containment test is containment as a literal substring. -/
theorem containsText_iff (text n : List Char) :
    containsText text n = true ↔ ∃ u v, text = u ++ n ++ v := by
  simp only [containsText, List.any_eq_true, List.mem_tails, startsWith_iff]
  constructor
  · rintro ⟨suffix, ⟨u, hu⟩, v, hv⟩
    exact ⟨u, v, by rw [← hu, hv, List.append_assoc]⟩
  · rintro ⟨u, v, h⟩
    exact ⟨n ++ v, ⟨u, by rw [h, List.append_assoc]⟩, v, rfl⟩

/-- A pattern that begins with `%` matches whenever the rest of the pattern
matches the whole text. -/
theorem likeMatch_percent_cons (pattern text : List Char) (h : likeMatch pattern text = true) :
    likeMatch ('%' :: pattern) text = true := by
  simp only [likeMatch, if_true, List.any_eq_true]
  exact ⟨text, by simp, h⟩

/-- The rows shown by a search whose only supplied field is the name. -/
theorem RefreshResults_name_only (s : AppState)
    (hn : s.name_edit ≠ []) (hp : s.part_edit = []) (hm : s.nsn_edit = [])
    (hr : s.serial_edit = []) (hq : s.quantity_edit = []) :
    (RefreshResults s).results_view
      = (orderByCreatedDesc
          (s.db.items.filter
            (fun r => likeMatch ("%".toList ++ ToUtf8 s.name_edit ++ "%".toList) r.name))).map
          rowCells := by
  have hc : collectConditions s.name_edit s.part_edit s.nsn_edit s.serial_edit s.quantity_edit
      = some ([kNameCondition], ["%".toList ++ ToUtf8 s.name_edit ++ "%".toList], 0) := by
    rw [collectConditions_eq, collectTextFilters_conditions, collectTextFilters_parameters]
    simp [hn, hp, hm, hr, hq]
  simp only [RefreshResults, hc, SetStatus, selectItems]
  congr 2
  apply List.filter_congr
  intro r _
  simp [searchBinds, hq, bindParameters, whereHolds, boundValue, conditionHolds, likeColumn]

/-- C4, as the code has it: a search whose only supplied field is name = n
shows exactly the stored items whose name matches the LIKE pattern `%n%` (no
ESCAPE clause), each once.  When n holds neither `%` nor `_`, these are exactly
the items whose name contains n as a substring up to ASCII letter case.  A `%`
in n is a wildcard: the search for `%` shows every item. -/
theorem name_search_matches_like (s : AppState)
    (hn : s.name_edit ≠ []) (hp : s.part_edit = []) (hm : s.nsn_edit = [])
    (hr : s.serial_edit = []) (hq : s.quantity_edit = []) :
    ∃ rows : List Row,
      (RefreshResults s).results_view = rows.map rowCells ∧
      rows.Perm
        (s.db.items.filter
          (fun r => likeMatch ("%".toList ++ ToUtf8 s.name_edit ++ "%".toList) r.name)) ∧
      ((∀ c ∈ ToUtf8 s.name_edit, c ≠ '%' ∧ c ≠ '_') →
        rows.Perm
          (s.db.items.filter (fun r => containsFolded r.name (ToUtf8 s.name_edit))) ∧
        ∀ r, r ∈ rows ↔
          r ∈ s.db.items ∧
          ∃ u w v, r.name = u ++ w ++ v ∧
            w.map foldCase = (ToUtf8 s.name_edit).map foldCase) ∧
      (s.name_edit = "%".toList → rows.Perm s.db.items) := by
  have h := RefreshResults_name_only s hn hp hm hr hq
  refine ⟨_, h, orderByCreatedDesc_perm _, ?_, ?_⟩
  · intro hw
    have hfilter : s.db.items.filter
          (fun r => likeMatch ("%".toList ++ ToUtf8 s.name_edit ++ "%".toList) r.name)
        = s.db.items.filter (fun r => containsFolded r.name (ToUtf8 s.name_edit)) := by
      apply List.filter_congr
      intro r _
      exact likeMatch_contains _ _ hw
    refine ⟨?_, ?_⟩
    · rw [← hfilter]
      exact orderByCreatedDesc_perm _
    · intro r
      rw [(orderByCreatedDesc_perm _).mem_iff, hfilter, List.mem_filter, containsFolded_iff]
  · intro hpct
    have hall : s.db.items.filter
          (fun r => likeMatch ("%".toList ++ ToUtf8 s.name_edit ++ "%".toList) r.name)
        = s.db.items := by
      rw [hpct, List.filter_eq_self]
      intro r _
      exact likeMatch_percent_cons _ _ (likeMatch_percent_cons _ _ (likeMatch_percent _))
    have hperm := orderByCreatedDesc_perm
      (s.db.items.filter
        (fun r => likeMatch ("%".toList ++ ToUtf8 s.name_edit ++ "%".toList) r.name))
    rw [hall] at hperm ⊢
    exact hperm

/-- C4, amended, at a table with the names `abc` and `xyz` and the search
`B`: the rows shown are a rearrangement of the rows whose name matches. -/
theorem name_search_matches_like_witness :
    ∃ rows : List Row,
      (RefreshResults
          (mkState [sampleRow 1 "abc".toList 3 "2024-01-01 00:00:00".toList,
                    sampleRow 2 "xyz".toList 3 "2024-01-02 00:00:00".toList]
            "B".toList [] [] [] [])).results_view
        = rows.map rowCells ∧
      rows.Perm
        ([sampleRow 1 "abc".toList 3 "2024-01-01 00:00:00".toList,
          sampleRow 2 "xyz".toList 3 "2024-01-02 00:00:00".toList].filter
          (fun r => likeMatch ("%".toList ++ ToUtf8 "B".toList ++ "%".toList) r.name)) ∧
      ((∀ c ∈ ToUtf8 "B".toList, c ≠ '%' ∧ c ≠ '_') →
        rows.Perm
          ([sampleRow 1 "abc".toList 3 "2024-01-01 00:00:00".toList,
            sampleRow 2 "xyz".toList 3 "2024-01-02 00:00:00".toList].filter
            (fun r => containsFolded r.name (ToUtf8 "B".toList))) ∧
        ∀ r, r ∈ rows ↔
          r ∈ [sampleRow 1 "abc".toList 3 "2024-01-01 00:00:00".toList,
               sampleRow 2 "xyz".toList 3 "2024-01-02 00:00:00".toList] ∧
          ∃ u w v, r.name = u ++ w ++ v ∧
            w.map foldCase = (ToUtf8 "B".toList).map foldCase) ∧
      ("B".toList = "%".toList →
        rows.Perm
          [sampleRow 1 "abc".toList 3 "2024-01-01 00:00:00".toList,
           sampleRow 2 "xyz".toList 3 "2024-01-02 00:00:00".toList]) :=
  name_search_matches_like
    (mkState [sampleRow 1 "abc".toList 3 "2024-01-01 00:00:00".toList,
              sampleRow 2 "xyz".toList 3 "2024-01-02 00:00:00".toList]
      "B".toList [] [] [] [])
    (by decide) rfl rfl rfl rfl

/-- C4 fails as stated: with the single stored name `abc`, the search for `%`
shows that item, although `abc` holds no percent sign; the search for `_`
shows it too, although `abc` holds no underscore; and the search for `B` shows
it, although `abc` holds no capital B. -/
theorem name_search_percent_counterexample :
    (RefreshResults
        (mkState [sampleRow 1 "abc".toList 3 "2024-01-01 00:00:00".toList]
          "%".toList [] [] [] [])).results_view
      = [rowCells (sampleRow 1 "abc".toList 3 "2024-01-01 00:00:00".toList)] ∧
    containsText "abc".toList "%".toList = false ∧
    (RefreshResults
        (mkState [sampleRow 1 "abc".toList 3 "2024-01-01 00:00:00".toList]
          "_".toList [] [] [] [])).results_view
      = [rowCells (sampleRow 1 "abc".toList 3 "2024-01-01 00:00:00".toList)] ∧
    containsText "abc".toList "_".toList = false ∧
    (RefreshResults
        (mkState [sampleRow 1 "abc".toList 3 "2024-01-01 00:00:00".toList]
          "B".toList [] [] [] [])).results_view
      = [rowCells (sampleRow 1 "abc".toList 3 "2024-01-01 00:00:00".toList)] ∧
    containsText "abc".toList "B".toList = false := by
  decide

/-! ## `ParseInt` -/

theorem char_eq_of_toNat (c : Char) (n : Nat) (h : c.toNat = n) : c = Char.ofNat n := by
  rw [← h, Char.ofNat_toNat]

/-- Skipping whitespace in front of a text that does not begin with
whitespace. -/
theorem dropWhile_iswspace_append (ws rest : List Char)
    (hws : ∀ c ∈ ws, iswspace c = true)
    (hrest : ∀ c ∈ rest.head?, iswspace c = false) :
    (ws ++ rest).dropWhile iswspace = rest := by
  induction ws with
  | nil =>
    cases rest with
    | nil => rfl
    | cons c cs =>
      have hc : iswspace c = false := hrest c (by simp)
      simp [List.dropWhile, hc]
  | cons w ws ih =>
    have hw : iswspace w = true := hws w (List.mem_cons_self _ _)
    simp only [List.cons_append, List.dropWhile, hw]
    exact ih (fun c hc => hws c (List.mem_cons_of_mem _ hc))

/-- The digits stage sets `eofbit` exactly when nothing follows the digits. -/
theorem extractDigits_eof (negative : Bool) (body : List Char) :
    (extractDigits negative body).eof = (body.dropWhile iswdigit).isEmpty := by
  unfold extractDigits
  simp only
  split_ifs <;> rfl

/-- The range check of the extraction: it succeeds with `v` exactly when the
value read is `v` and lies in the `int` range. -/
theorem rangeCheck_accepts_iff (m v : Int) (e : Bool) :
    ((if m < INT_MIN then ({ out := INT_MIN, fail := true, eof := e } : Extraction)
      else if INT_MAX < m then { out := INT_MAX, fail := true, eof := e }
      else { out := m, fail := false, eof := e }).fail = false ∧
     (if m < INT_MIN then ({ out := INT_MIN, fail := true, eof := e } : Extraction)
      else if INT_MAX < m then { out := INT_MAX, fail := true, eof := e }
      else { out := m, fail := false, eof := e }).out = v) ↔
      (v = m ∧ INT_MIN ≤ v ∧ v ≤ INT_MAX) := by
  by_cases h1 : m < INT_MIN
  · simp only [h1, if_true, Bool.true_eq_false, false_and, false_iff, not_and, not_le]
    intro hv hmin
    rw [hv] at hmin
    exact absurd h1 (not_lt.mpr hmin)
  · by_cases h2 : INT_MAX < m
    · simp only [h1, h2, if_true, if_false, Bool.true_eq_false, false_and, false_iff, not_and,
        not_le]
      intro hv _
      rw [hv]
      exact h2
    · simp only [h1, h2, if_false, true_and]
      constructor
      · intro hv
        exact ⟨hv.symm, hv ▸ not_lt.mp h1, hv ▸ not_lt.mp h2⟩
      · rintro ⟨hv, _, _⟩
        exact hv.symm

/-- When the digits stage succeeds having consumed the whole input. -/
theorem extractDigits_accepts_iff (negative : Bool) (body : List Char) (v : Int) :
    ((extractDigits negative body).fail = false ∧ (extractDigits negative body).eof = true ∧
        (extractDigits negative body).out = v) ↔
      (body ≠ [] ∧ (∀ c ∈ body, iswdigit c = true) ∧
        v = (if negative then -((digitsValue body : Nat) : Int)
             else ((digitsValue body : Nat) : Int)) ∧
        INT_MIN ≤ v ∧ v ≤ INT_MAX) := by
  by_cases hall : ∀ c ∈ body, iswdigit c = true
  · have ht : body.takeWhile iswdigit = body := List.takeWhile_eq_self_iff.mpr hall
    have hd : body.dropWhile iswdigit = [] := List.dropWhile_eq_nil_iff.mpr hall
    rw [extractDigits_eof, hd]
    unfold extractDigits
    simp only [ht, hd]
    cases body with
    | nil => simp
    | cons c cs =>
      simp only [List.isEmpty_cons, Bool.false_eq_true, if_false, List.isEmpty_nil, ne_eq,
        reduceCtorEq, not_false_eq_true, true_and]
      rw [rangeCheck_accepts_iff]
      constructor
      · rintro ⟨hv, h1, h2⟩
        exact ⟨hall, hv, h1, h2⟩
      · rintro ⟨_, hv, h1, h2⟩
        exact ⟨hv, h1, h2⟩
  · constructor
    · rintro ⟨_, he, _⟩
      rw [extractDigits_eof] at he
      exact absurd (List.dropWhile_eq_nil_iff.mp (List.isEmpty_iff.mp he)) hall
    · rintro ⟨_, h, _⟩
      exact absurd h hall

/-- `ParseInt` returns `true` exactly when the text is non-empty and the
extraction ends with `failbit` clear and `eofbit` set. -/
theorem ParseInt_eq_some_iff (s : List Char) (v : Int) :
    ParseInt s = some v ↔
      s ≠ [] ∧ (extractInt s).fail = false ∧ (extractInt s).eof = true ∧
        (extractInt s).out = v := by
  unfold ParseInt
  cases s with
  | nil => simp
  | cons c cs =>
    simp only [List.isEmpty_cons, Bool.false_eq_true, if_false, ne_eq, reduceCtorEq,
      not_false_eq_true, true_and]
    cases hf : (extractInt (c :: cs)).fail <;> cases he : (extractInt (c :: cs)).eof <;> simp

theorem iswdigit_bounds (c : Char) (h : iswdigit c = true) : 48 ≤ c.toNat ∧ c.toNat ≤ 57 := by
  simpa [iswdigit] using h

theorem iswspace_of_iswdigit (c : Char) (h : iswdigit c = true) : iswspace c = false := by
  have hb := iswdigit_bounds c h
  simp only [iswspace, Bool.or_eq_false_iff, decide_eq_false_iff_not, Bool.and_eq_false_imp,
    decide_eq_true_eq, not_le]
  omega

/-- The texts `ParseInt` accepts: whitespace, an optional sign, digits to the
end, value in range. -/
theorem ParseInt_shape (s : List Char) (v : Int) :
    ParseInt s = some v ↔
      ∃ ws sign ds, s = ws ++ sign ++ ds ∧ (∀ c ∈ ws, iswspace c = true) ∧
        (sign = [] ∨ sign = ['+'] ∨ sign = ['-']) ∧
        ds ≠ [] ∧ (∀ c ∈ ds, iswdigit c = true) ∧
        v = signedValue sign ds ∧ INT_MIN ≤ v ∧ v ≤ INT_MAX := by
  rw [ParseInt_eq_some_iff]
  constructor
  · rintro ⟨_, hacc⟩
    have hsplit : s = s.takeWhile iswspace ++ s.dropWhile iswspace :=
      (List.takeWhile_append_dropWhile iswspace s).symm
    have hws : ∀ c ∈ s.takeWhile iswspace, iswspace c = true :=
      fun c hc => List.mem_takeWhile_imp hc
    unfold extractInt at hacc
    cases hdrop : s.dropWhile iswspace with
    | nil => simp [hdrop] at hacc
    | cons c cs =>
      rw [hdrop] at hacc hsplit
      simp only at hacc
      by_cases h45 : c.toNat = 45
      · rw [if_pos h45] at hacc
        obtain ⟨hne, hd, hv, h1, h2⟩ := (extractDigits_accepts_iff true cs v).mp hacc
        have hc : c = '-' := char_eq_of_toNat c 45 h45
        refine ⟨s.takeWhile iswspace, ['-'], cs, ?_, hws, Or.inr (Or.inr rfl), hne, hd, ?_, h1, h2⟩
        · rw [← hc, List.append_assoc]
          exact hsplit
        · simpa [signedValue] using hv
      · rw [if_neg h45] at hacc
        by_cases h43 : c.toNat = 43
        · rw [if_pos h43] at hacc
          obtain ⟨hne, hd, hv, h1, h2⟩ := (extractDigits_accepts_iff false cs v).mp hacc
          have hc : c = '+' := char_eq_of_toNat c 43 h43
          refine ⟨s.takeWhile iswspace, ['+'], cs, ?_, hws, Or.inr (Or.inl rfl), hne, hd, ?_,
            h1, h2⟩
          · rw [← hc, List.append_assoc]
            exact hsplit
          · simpa [signedValue] using hv
        · rw [if_neg h43] at hacc
          obtain ⟨hne, hd, hv, h1, h2⟩ := (extractDigits_accepts_iff false (c :: cs) v).mp hacc
          refine ⟨s.takeWhile iswspace, [], c :: cs, ?_, hws, Or.inl rfl, hne, hd, ?_, h1, h2⟩
          · rw [List.append_nil]
            exact hsplit
          · simpa [signedValue] using hv
  · rintro ⟨ws, sign, ds, hs, hws, hsign, hne, hd, hv, h1, h2⟩
    obtain ⟨d, ds2, hds⟩ := List.exists_cons_of_ne_nil hne
    have hdd : iswdigit d = true := hd d (by rw [hds]; exact List.mem_cons_self _ _)
    have hdb := iswdigit_bounds d hdd
    have hsne : s ≠ [] := by
      rw [hs, hds]
      simp
    refine ⟨hsne, ?_⟩
    have hdrop : s.dropWhile iswspace = sign ++ ds := by
      rw [hs, List.append_assoc]
      apply dropWhile_iswspace_append ws (sign ++ ds) hws
      rcases hsign with h | h | h <;> subst h
      · intro c hc
        rw [hds] at hc
        simp only [List.nil_append, List.head?_cons, Option.mem_def, Option.some.injEq] at hc
        rw [← hc]
        exact iswspace_of_iswdigit d hdd
      · intro c hc
        simp only [List.cons_append, List.head?_cons, Option.mem_def, Option.some.injEq] at hc
        rw [← hc]
        decide
      · intro c hc
        simp only [List.cons_append, List.head?_cons, Option.mem_def, Option.some.injEq] at hc
        rw [← hc]
        decide
    unfold extractInt
    rw [hdrop]
    rcases hsign with h | h | h <;> subst h
    · rw [hds]
      have h45 : ¬ d.toNat = 45 := by omega
      have h43 : ¬ d.toNat = 43 := by omega
      simp only [List.nil_append, h45, h43, if_false]
      rw [← hds]
      exact (extractDigits_accepts_iff false ds v).mpr
        ⟨hne, hd, by simpa [signedValue] using hv, h1, h2⟩
    · have h45 : ¬ ('+' : Char).toNat = 45 := by decide
      have h43 : ('+' : Char).toNat = 43 := by decide
      simp only [List.cons_append, List.nil_append, h45, h43, if_false, if_true]
      exact (extractDigits_accepts_iff false ds v).mpr
        ⟨hne, hd, by simpa [signedValue] using hv, h1, h2⟩
    · have h45 : ('-' : Char).toNat = 45 := by decide
      simp only [List.cons_append, List.nil_append, h45, if_true]
      exact (extractDigits_accepts_iff true ds v).mpr
        ⟨hne, hd, by simpa [signedValue] using hv, h1, h2⟩

/-- C6, as the code has it: `ParseInt` accepts a text with value `v` exactly
when the text is a run of whitespace (possibly empty), then an optional sign
`+` or `-`, then one or more decimal digits up to the end of the text, and the
signed value `v` lies in the 32-bit `int` range.  Hence leading whitespace and
a sign are accepted; a text that is accepted ends in a decimal digit, so
trailing whitespace or any other trailing character, and the empty string, are
rejected; a text of digits only whose value fits is accepted with that
value. -/
theorem ParseInt_accepts_iff (s : List Char) (v : Int) :
    (ParseInt s = some v ↔
      ∃ ws sign ds, s = ws ++ sign ++ ds ∧ (∀ c ∈ ws, iswspace c = true) ∧
        (sign = [] ∨ sign = ['+'] ∨ sign = ['-']) ∧
        ds ≠ [] ∧ (∀ c ∈ ds, iswdigit c = true) ∧
        v = signedValue sign ds ∧ INT_MIN ≤ v ∧ v ≤ INT_MAX) ∧
    (ParseInt s = some v → ∃ c, s.getLast? = some c ∧ iswdigit c = true) ∧
    (isPlainDecimal s = true → ((digitsValue s : Nat) : Int) ≤ INT_MAX →
      ParseInt s = some ((digitsValue s : Nat) : Int)) ∧
    ParseInt [] = none := by
  refine ⟨ParseInt_shape s v, ?_, ?_, rfl⟩
  · intro h
    obtain ⟨ws, sign, ds, hs, _, _, hne, hd, _⟩ := (ParseInt_shape s v).mp h
    refine ⟨ds.getLast hne, ?_, hd _ (List.getLast_mem hne)⟩
    rw [hs, List.getLast?_append_of_ne_nil _ hne, List.getLast?_eq_getLast _ hne]
  · intro hplain hmax
    simp only [isPlainDecimal, Bool.and_eq_true, Bool.not_eq_true', List.isEmpty_eq_false,
      List.all_eq_true] at hplain
    refine (ParseInt_shape s _).mpr ⟨[], [], s, rfl, by simp, Or.inl rfl, ?_, hplain.2, ?_, ?_, hmax⟩
    · exact hplain.1
    · simp only [signedValue]
      rfl
    · have : (0 : Int) ≤ ((digitsValue s : Nat) : Int) := Int.natCast_nonneg _
      unfold INT_MIN
      omega

/-- C6 fails as stated: the texts ` 5` (leading whitespace), `+5` and `-5`
(leading non-digit character) are accepted, though none is a run of digits
spanning the whole string. -/
theorem ParseInt_leading_counterexample :
    ParseInt " 5".toList = some 5 ∧ isPlainDecimal " 5".toList = false ∧
    ParseInt "+5".toList = some 5 ∧ isPlainDecimal "+5".toList = false ∧
    ParseInt "-5".toList = some (-5) ∧ isPlainDecimal "-5".toList = false := by
  decide

/-! ## Update and delete of an id that matches no row -/

theorem statusMessages_append (a b : List Event) :
    statusMessages (a ++ b) = statusMessages a ++ statusMessages b := by
  induction a with
  | nil => rfl
  | cons e rest ih => cases e <;> simp [statusMessages, ih]

theorem statusMessages_steps (n : Nat) :
    statusMessages (List.replicate n Event.step) = [] := by
  induction n with
  | zero => rfl
  | succ n ih => simpa [List.replicate_succ, statusMessages] using ih

/-- `RefreshResults` never writes to the table. -/
theorem RefreshResults_db (s : AppState) : (RefreshResults s).db = s.db := by
  unfold RefreshResults
  simp only
  split <;> rfl

/-- `RefreshResults` keeps the selection. -/
theorem RefreshResults_selected_id (s : AppState) :
    (RefreshResults s).selected_id = s.selected_id := by
  unfold RefreshResults
  simp only
  split <;> rfl

/-- The search that follows `ClearInputs` has no predicate and shows every
row. -/
theorem RefreshResults_ClearInputs (s : AppState) :
    (RefreshResults (ClearInputs s)).trace
        = s.trace ++ [Event.status "Ready".toList] ++ [Event.prepare (buildQuery [])]
            ++ List.replicate (s.db.items.length + 1) Event.step ++ [Event.finalize]
            ++ [Event.status
                  (to_wstring (s.db.items.length : Int) ++ " record(s) found.".toList)] ∧
    (RefreshResults (ClearInputs s)).results_view
        = (orderByCreatedDesc s.db.items).map rowCells := by
  have hc : collectConditions (ClearInputs s).name_edit (ClearInputs s).part_edit
      (ClearInputs s).nsn_edit (ClearInputs s).serial_edit (ClearInputs s).quantity_edit
      = some ([], [], 0) := rfl
  have hsel : selectItems (ClearInputs s).db [] (searchBinds [] (ClearInputs s).quantity_edit 0)
      = orderByCreatedDesc s.db.items := by
    simp [selectItems, whereHolds, ClearInputs, SetStatus]
  have hlen : (orderByCreatedDesc s.db.items).length = s.db.items.length :=
    (orderByCreatedDesc_perm _).length_eq
  constructor
  · rw [RefreshResults_trace _ [] [] 0 hc, hsel, hlen]
    simp [ClearInputs, SetStatus, searchBinds, bindParameters]
  · simp only [RefreshResults, hc]
    rw [hsel]
    rfl

/-- An UPDATE bound to an id that no row has changes nothing. -/
theorem updateItem_missing (db : Database) (id : Int) (name part nsn serial : List Char)
    (quantity : Int) (h : ∀ r ∈ db.items, r.id ≠ id) :
    updateItem db id name part nsn serial quantity = db := by
  unfold updateItem
  have hmap : db.items.map (fun r =>
      if r.id = id then
        { r with name := name, part_number := part, nsn := nsn, serial_number := serial,
                 quantity := quantity }
      else r) = db.items := by
    conv_rhs => rw [← List.map_id db.items]
    apply List.map_congr_left
    intro r hr
    simp [h r hr]
  rw [hmap]

/-- A DELETE bound to an id that no row has changes nothing. -/
theorem deleteItem_missing (db : Database) (id : Int) (h : ∀ r ∈ db.items, r.id ≠ id) :
    deleteItem db id = db := by
  unfold deleteItem
  have hf : db.items.filter (fun r => decide (r.id ≠ id)) = db.items := by
    rw [List.filter_eq_self]
    intro r hr
    simpa using h r hr
  rw [hf]

/-- After a DELETE no row has the bound id. -/
theorem deleteItem_absent (db : Database) (id : Int) :
    ∀ r ∈ (deleteItem db id).items, r.id ≠ id := by
  intro r hr
  unfold deleteItem at hr
  simpa using (List.mem_filter.mp hr).2

/-- The accepted path of `UpdateRecord`. -/
theorem UpdateRecord_accepted (s : AppState) (q : Int)
    (hsel : 0 ≤ s.selected_id)
    (hn : s.name_edit ≠ []) (hp : s.part_edit ≠ []) (hm : s.nsn_edit ≠ [])
    (hr : s.serial_edit ≠ []) (hq : ParseInt s.quantity_edit = some q) :
    (UpdateRecord s).db
        = updateItem s.db s.selected_id (ToUtf8 s.name_edit) (ToUtf8 s.part_edit)
            (ToUtf8 s.nsn_edit) (ToUtf8 s.serial_edit) q ∧
    statusMessages (UpdateRecord s).trace
        = statusMessages s.trace ++
            [ "Record updated.".toList, "Ready".toList,
              to_wstring ((UpdateRecord s).db.items.length : Int)
                ++ " record(s) found.".toList ] ∧
    databaseCalls (UpdateRecord s).trace
        = databaseCalls s.trace ++
            [ Event.prepare
                ("UPDATE items SET name = ?, part_number = ?, nsn = ?, serial_number = ?, "
                  ++ "quantity = ? WHERE id = ?").toList,
              Event.bind_text 1 (ToUtf8 s.name_edit),
              Event.bind_text 2 (ToUtf8 s.part_edit),
              Event.bind_text 3 (ToUtf8 s.nsn_edit),
              Event.bind_text 4 (ToUtf8 s.serial_edit),
              Event.bind_int 5 q,
              Event.bind_int 6 s.selected_id,
              Event.step,
              Event.finalize,
              Event.prepare (buildQuery []) ]
            ++ List.replicate ((UpdateRecord s).db.items.length + 1) Event.step
            ++ [Event.finalize] ∧
    (UpdateRecord s).selected_id = -1 := by
  have hsel2 : ¬ s.selected_id < 0 := not_lt.mpr hsel
  have he : (s.name_edit.isEmpty || s.part_edit.isEmpty || s.nsn_edit.isEmpty
      || s.serial_edit.isEmpty) = false := by
    cases hn2 : s.name_edit with
    | nil => exact absurd hn2 hn
    | cons _ _ =>
      cases hp2 : s.part_edit with
      | nil => exact absurd hp2 hp
      | cons _ _ =>
        cases hm2 : s.nsn_edit with
        | nil => exact absurd hm2 hm
        | cons _ _ =>
          cases hr2 : s.serial_edit with
          | nil => exact absurd hr2 hr
          | cons _ _ => rfl
  have hu : UpdateRecord s = RefreshResults (ClearInputs (SetStatus
      { s with
        db := updateItem s.db s.selected_id (ToUtf8 s.name_edit) (ToUtf8 s.part_edit)
                (ToUtf8 s.nsn_edit) (ToUtf8 s.serial_edit) q,
        trace := s.trace ++
          [ Event.prepare
              ("UPDATE items SET name = ?, part_number = ?, nsn = ?, serial_number = ?, quantity = ? "
                ++ "WHERE id = ?").toList,
            Event.bind_text 1 (ToUtf8 s.name_edit),
            Event.bind_text 2 (ToUtf8 s.part_edit),
            Event.bind_text 3 (ToUtf8 s.nsn_edit),
            Event.bind_text 4 (ToUtf8 s.serial_edit),
            Event.bind_int 5 q,
            Event.bind_int 6 s.selected_id,
            Event.step,
            Event.finalize ] } "Record updated.".toList)) := by
    unfold UpdateRecord
    simp only [hsel2, if_false, he, Bool.false_eq_true, hq]
  have hdb : (UpdateRecord s).db
      = updateItem s.db s.selected_id (ToUtf8 s.name_edit) (ToUtf8 s.part_edit)
          (ToUtf8 s.nsn_edit) (ToUtf8 s.serial_edit) q := by
    rw [hu, RefreshResults_db]
    rfl
  refine ⟨hdb, ?_, ?_, ?_⟩
  · rw [hdb, hu, (RefreshResults_ClearInputs _).1]
    simp [statusMessages_append, statusMessages_steps, statusMessages, SetStatus]
  · rw [hdb, hu, (RefreshResults_ClearInputs _).1]
    simp [databaseCalls, List.filter_append, Event.isDatabaseCall, SetStatus]
  · rw [hu, RefreshResults_selected_id]
    rfl

/-- The confirmed path of `DeleteRecord`. -/
theorem DeleteRecord_accepted (s : AppState) (hsel : 0 ≤ s.selected_id) :
    (DeleteRecord true s).db = deleteItem s.db s.selected_id ∧
    statusMessages (DeleteRecord true s).trace
        = statusMessages s.trace ++
            [ "Record deleted.".toList, "Ready".toList,
              to_wstring ((DeleteRecord true s).db.items.length : Int)
                ++ " record(s) found.".toList ] ∧
    (DeleteRecord true s).selected_id = -1 := by
  have hsel2 : ¬ s.selected_id < 0 := not_lt.mpr hsel
  have hu : DeleteRecord true s = RefreshResults (ClearInputs (SetStatus
      { s with
        db := deleteItem s.db s.selected_id,
        trace := s.trace ++
          [ Event.prepare "DELETE FROM items WHERE id = ?".toList,
            Event.bind_int 1 s.selected_id,
            Event.step,
            Event.finalize ] } "Record deleted.".toList)) := by
    unfold DeleteRecord
    simp only [hsel2, if_false, Bool.not_true, Bool.false_eq_true]
  have hdb : (DeleteRecord true s).db = deleteItem s.db s.selected_id := by
    rw [hu, RefreshResults_db]
    rfl
  refine ⟨hdb, ?_, ?_⟩
  · rw [hdb, hu, (RefreshResults_ClearInputs _).1]
    simp [statusMessages_append, statusMessages_steps, statusMessages, SetStatus]
  · rw [hu, RefreshResults_selected_id]
    rfl

/-- C7, as the code has it: for every store state, every valid field tuple and
every selected id that matches no row, `UpdateRecord` changes no row.  It does
not fail with NotFound: for a selected id that is not negative the UPDATE is
executed and `Record updated.` is reported, the number of affected rows never
being inspected; for a negative selected id the update is refused with
`Select a record to update.` before any call on the database. -/
theorem update_of_missing_id (s : AppState) (q : Int)
    (hn : s.name_edit ≠ []) (hp : s.part_edit ≠ []) (hm : s.nsn_edit ≠ [])
    (hr : s.serial_edit ≠ []) (hq : ParseInt s.quantity_edit = some q)
    (hmiss : ∀ r ∈ s.db.items, r.id ≠ s.selected_id) :
    (UpdateRecord s).db = s.db ∧
    (0 ≤ s.selected_id →
      statusMessages (UpdateRecord s).trace
        = statusMessages s.trace ++
            [ "Record updated.".toList, "Ready".toList,
              to_wstring (s.db.items.length : Int) ++ " record(s) found.".toList ] ∧
      Event.bind_int 6 s.selected_id ∈ databaseCalls (UpdateRecord s).trace) ∧
    (s.selected_id < 0 →
      UpdateRecord s = SetStatus s "Select a record to update.".toList) := by
  refine ⟨?_, ?_, ?_⟩
  · by_cases hsel : s.selected_id < 0
    · simp only [UpdateRecord, hsel, if_true]
      rfl
    · rw [(UpdateRecord_accepted s q (not_lt.mp hsel) hn hp hm hr hq).1]
      exact updateItem_missing _ _ _ _ _ _ _ hmiss
  · intro hsel
    obtain ⟨hdb, hst, hcalls, _⟩ := UpdateRecord_accepted s q hsel hn hp hm hr hq
    have hdb2 : (UpdateRecord s).db = s.db := by
      rw [hdb]
      exact updateItem_missing _ _ _ _ _ _ _ hmiss
    constructor
    · rw [hst, hdb2]
    · rw [hcalls]
      simp
  · intro hsel
    simp only [UpdateRecord, hsel, if_true]

/-- C7, amended, at a table holding only id 1 with id 7 selected. -/
theorem update_of_missing_id_witness :
    (UpdateRecord
        { mkState [sampleRow 1 "abc".toList 3 "2024-01-01 00:00:00".toList]
            "n".toList "p".toList "m".toList "r".toList "4".toList with selected_id := 7 }).db
      = { items := [sampleRow 1 "abc".toList 3 "2024-01-01 00:00:00".toList], seq := 1 } ∧
    ((0 : Int) ≤ 7 →
      statusMessages
          (UpdateRecord
            { mkState [sampleRow 1 "abc".toList 3 "2024-01-01 00:00:00".toList]
                "n".toList "p".toList "m".toList "r".toList "4".toList
              with selected_id := 7 }).trace
        = [] ++ [ "Record updated.".toList, "Ready".toList, "1 record(s) found.".toList ] ∧
      Event.bind_int 6 7 ∈
        databaseCalls
          (UpdateRecord
            { mkState [sampleRow 1 "abc".toList 3 "2024-01-01 00:00:00".toList]
                "n".toList "p".toList "m".toList "r".toList "4".toList
              with selected_id := 7 }).trace) ∧
    ((7 : Int) < 0 →
      UpdateRecord
          { mkState [sampleRow 1 "abc".toList 3 "2024-01-01 00:00:00".toList]
              "n".toList "p".toList "m".toList "r".toList "4".toList with selected_id := 7 }
        = SetStatus
            { mkState [sampleRow 1 "abc".toList 3 "2024-01-01 00:00:00".toList]
                "n".toList "p".toList "m".toList "r".toList "4".toList with selected_id := 7 }
            "Select a record to update.".toList) :=
  update_of_missing_id
    { mkState [sampleRow 1 "abc".toList 3 "2024-01-01 00:00:00".toList]
        "n".toList "p".toList "m".toList "r".toList "4".toList with selected_id := 7 }
    4 (by decide) (by decide) (by decide) (by decide) (by decide) (by decide)

/-- C7 fails as stated: with only id 1 stored and id 7 selected, the update
with valid fields reports `Record updated.`, and no failure. -/
theorem update_of_missing_id_counterexample :
    (∀ r ∈ [sampleRow 1 "abc".toList 3 "2024-01-01 00:00:00".toList], r.id ≠ 7) ∧
    statusMessages
        (UpdateRecord
          { mkState [sampleRow 1 "abc".toList 3 "2024-01-01 00:00:00".toList]
              "n".toList "p".toList "m".toList "r".toList "4".toList
            with selected_id := 7 }).trace
      = [ "Record updated.".toList, "Ready".toList, "1 record(s) found.".toList ] := by
  decide

/-! ## Delete finality -/

/-- Without a selection `UpdateRecord` only sets the status. -/
theorem UpdateRecord_unselected (s : AppState) (h : s.selected_id < 0) :
    UpdateRecord s = SetStatus s "Select a record to update.".toList := by
  simp only [UpdateRecord, h, if_true]

/-- Without a selection `DeleteRecord` only sets the status. -/
theorem DeleteRecord_unselected (confirmed : Bool) (s : AppState) (h : s.selected_id < 0) :
    DeleteRecord confirmed s = SetStatus s "Select a record to delete.".toList := by
  simp only [DeleteRecord, h, if_true]

/-- C8, as the code has it: once the delete of the selected id has succeeded,
no row has that id and the selection is cleared, so that an update or delete
issued next is refused with `Select a record to ...` before any call on the
database.  In any later state `t` that targets the same id again while no row
has it, update and delete leave every row unchanged; they do not fail with
NotFound but report `Record updated.` and `Record deleted.`. -/
theorem delete_finality (s t : AppState) (q : Int)
    (hsel : 0 ≤ s.selected_id)
    (htsel : t.selected_id = s.selected_id)
    (htdb : ∀ r ∈ t.db.items, r.id ≠ s.selected_id)
    (hn : t.name_edit ≠ []) (hp : t.part_edit ≠ []) (hm : t.nsn_edit ≠ [])
    (hr : t.serial_edit ≠ []) (hq : ParseInt t.quantity_edit = some q) :
    (∀ r ∈ (DeleteRecord true s).db.items, r.id ≠ s.selected_id) ∧
    (DeleteRecord true s).selected_id = -1 ∧
    UpdateRecord (DeleteRecord true s)
      = SetStatus (DeleteRecord true s) "Select a record to update.".toList ∧
    (∀ confirmed, DeleteRecord confirmed (DeleteRecord true s)
      = SetStatus (DeleteRecord true s) "Select a record to delete.".toList) ∧
    (UpdateRecord t).db = t.db ∧
    statusMessages (UpdateRecord t).trace
      = statusMessages t.trace ++
          [ "Record updated.".toList, "Ready".toList,
            to_wstring (t.db.items.length : Int) ++ " record(s) found.".toList ] ∧
    (DeleteRecord true t).db = t.db ∧
    statusMessages (DeleteRecord true t).trace
      = statusMessages t.trace ++
          [ "Record deleted.".toList, "Ready".toList,
            to_wstring (t.db.items.length : Int) ++ " record(s) found.".toList ] := by
  obtain ⟨hdb, _, hcleared⟩ := DeleteRecord_accepted s hsel
  have htsel2 : 0 ≤ t.selected_id := by rw [htsel]; exact hsel
  have htdb2 : ∀ r ∈ t.db.items, r.id ≠ t.selected_id := by rw [htsel]; exact htdb
  obtain ⟨hu1, hu2, _, _⟩ := UpdateRecord_accepted t q htsel2 hn hp hm hr hq
  obtain ⟨hd1, hd2, _⟩ := DeleteRecord_accepted t htsel2
  have hudb : (UpdateRecord t).db = t.db := by
    rw [hu1]
    exact updateItem_missing _ _ _ _ _ _ _ htdb2
  have hddb : (DeleteRecord true t).db = t.db := by
    rw [hd1]
    exact deleteItem_missing _ _ htdb2
  refine ⟨?_, hcleared, ?_, ?_, hudb, ?_, hddb, ?_⟩
  · rw [hdb]
    exact deleteItem_absent _ _
  · exact UpdateRecord_unselected _ (by rw [hcleared]; decide)
  · intro confirmed
    exact DeleteRecord_unselected confirmed _ (by rw [hcleared]; decide)
  · rw [hu2, hudb]
  · rw [hd2, hddb]

/-- C8, amended, at a table holding ids 1 and 2 with id 1 selected and
deleted, then targeted again. -/
theorem delete_finality_witness :
    (∀ r ∈ (DeleteRecord true
              { mkState [sampleRow 1 "abc".toList 3 "2024-01-01 00:00:00".toList,
                         sampleRow 2 "xyz".toList 3 "2024-01-02 00:00:00".toList]
                  [] [] [] [] [] with selected_id := 1 }).db.items, r.id ≠ 1) ∧
    (DeleteRecord true
        { mkState [sampleRow 1 "abc".toList 3 "2024-01-01 00:00:00".toList,
                   sampleRow 2 "xyz".toList 3 "2024-01-02 00:00:00".toList]
            [] [] [] [] [] with selected_id := 1 }).selected_id = -1 ∧
    UpdateRecord
        (DeleteRecord true
          { mkState [sampleRow 1 "abc".toList 3 "2024-01-01 00:00:00".toList,
                     sampleRow 2 "xyz".toList 3 "2024-01-02 00:00:00".toList]
              [] [] [] [] [] with selected_id := 1 })
      = SetStatus
          (DeleteRecord true
            { mkState [sampleRow 1 "abc".toList 3 "2024-01-01 00:00:00".toList,
                       sampleRow 2 "xyz".toList 3 "2024-01-02 00:00:00".toList]
                [] [] [] [] [] with selected_id := 1 })
          "Select a record to update.".toList ∧
    (∀ confirmed,
      DeleteRecord confirmed
          (DeleteRecord true
            { mkState [sampleRow 1 "abc".toList 3 "2024-01-01 00:00:00".toList,
                       sampleRow 2 "xyz".toList 3 "2024-01-02 00:00:00".toList]
                [] [] [] [] [] with selected_id := 1 })
        = SetStatus
            (DeleteRecord true
              { mkState [sampleRow 1 "abc".toList 3 "2024-01-01 00:00:00".toList,
                         sampleRow 2 "xyz".toList 3 "2024-01-02 00:00:00".toList]
                  [] [] [] [] [] with selected_id := 1 })
            "Select a record to delete.".toList) ∧
    (UpdateRecord
        { mkState [sampleRow 2 "xyz".toList 3 "2024-01-02 00:00:00".toList]
            "n".toList "p".toList "m".toList "r".toList "4".toList with selected_id := 1 }).db
      = { items := [sampleRow 2 "xyz".toList 3 "2024-01-02 00:00:00".toList], seq := 2 } ∧
    statusMessages
        (UpdateRecord
          { mkState [sampleRow 2 "xyz".toList 3 "2024-01-02 00:00:00".toList]
              "n".toList "p".toList "m".toList "r".toList "4".toList
            with selected_id := 1 }).trace
      = [] ++ [ "Record updated.".toList, "Ready".toList, "1 record(s) found.".toList ] ∧
    (DeleteRecord true
        { mkState [sampleRow 2 "xyz".toList 3 "2024-01-02 00:00:00".toList]
            "n".toList "p".toList "m".toList "r".toList "4".toList with selected_id := 1 }).db
      = { items := [sampleRow 2 "xyz".toList 3 "2024-01-02 00:00:00".toList], seq := 2 } ∧
    statusMessages
        (DeleteRecord true
          { mkState [sampleRow 2 "xyz".toList 3 "2024-01-02 00:00:00".toList]
              "n".toList "p".toList "m".toList "r".toList "4".toList
            with selected_id := 1 }).trace
      = [] ++ [ "Record deleted.".toList, "Ready".toList, "1 record(s) found.".toList ] :=
  delete_finality
    { mkState [sampleRow 1 "abc".toList 3 "2024-01-01 00:00:00".toList,
               sampleRow 2 "xyz".toList 3 "2024-01-02 00:00:00".toList]
        [] [] [] [] [] with selected_id := 1 }
    { mkState [sampleRow 2 "xyz".toList 3 "2024-01-02 00:00:00".toList]
        "n".toList "p".toList "m".toList "r".toList "4".toList with selected_id := 1 }
    4 (by decide) rfl (by decide) (by decide) (by decide) (by decide) (by decide) (by decide)

/-- C8 fails as stated: id 1 is stored, selected and deleted; when id 1 is
targeted again in the state the delete left, the update with valid fields
reports `Record updated.` and the delete reports `Record deleted.`, neither
fails. -/
theorem delete_finality_counterexample :
    (DeleteRecord true
        { mkState [sampleRow 1 "abc".toList 3 "2024-01-01 00:00:00".toList]
            [] [] [] [] [] with selected_id := 1 }).db.items = [] ∧
    statusMessages
        ((UpdateRecord
          { DeleteRecord true
              { mkState [sampleRow 1 "abc".toList 3 "2024-01-01 00:00:00".toList]
                  [] [] [] [] [] with selected_id := 1 }
            with selected_id := 1, name_edit := "n".toList, part_edit := "p".toList,
                 nsn_edit := "m".toList, serial_edit := "r".toList,
                 quantity_edit := "4".toList }).trace.drop
          (DeleteRecord true
              { mkState [sampleRow 1 "abc".toList 3 "2024-01-01 00:00:00".toList]
                  [] [] [] [] [] with selected_id := 1 }).trace.length)
      = [ "Record updated.".toList, "Ready".toList, "0 record(s) found.".toList ] ∧
    statusMessages
        ((DeleteRecord true
          { DeleteRecord true
              { mkState [sampleRow 1 "abc".toList 3 "2024-01-01 00:00:00".toList]
                  [] [] [] [] [] with selected_id := 1 }
            with selected_id := 1 }).trace.drop
          (DeleteRecord true
              { mkState [sampleRow 1 "abc".toList 3 "2024-01-01 00:00:00".toList]
                  [] [] [] [] [] with selected_id := 1 }).trace.length)
      = [ "Record deleted.".toList, "Ready".toList, "0 record(s) found.".toList ] := by
  decide

/-! ## Quantities written by save and update -/

/-- An accepted quantity lies in the `int` range, and is not negative unless
the text holds a minus sign. -/
theorem ParseInt_range (text : List Char) (q : Int) (h : ParseInt text = some q) :
    INT_MIN ≤ q ∧ q ≤ INT_MAX ∧ ('-' ∉ text → 0 ≤ q) := by
  obtain ⟨ws, sign, ds, hs, _, _, _, _, hv, h1, h2⟩ := (ParseInt_shape text q).mp h
  refine ⟨h1, h2, ?_⟩
  intro hminus
  have hsign : sign ≠ ['-'] := by
    intro hsg
    apply hminus
    rw [hs, hsg]
    simp
  rw [hv]
  simp only [signedValue, hsign, if_false]
  exact Int.natCast_nonneg _

/-- The accepted path of `SaveRecord`. -/
theorem SaveRecord_accepted (now : List Char) (s : AppState) (q : Int)
    (hn : s.name_edit ≠ []) (hp : s.part_edit ≠ []) (hm : s.nsn_edit ≠ [])
    (hr : s.serial_edit ≠ []) (hq : ParseInt s.quantity_edit = some q) :
    (SaveRecord now s).db
        = insertItem s.db now (ToUtf8 s.name_edit) (ToUtf8 s.part_edit)
            (ToUtf8 s.nsn_edit) (ToUtf8 s.serial_edit) q ∧
    databaseCalls (SaveRecord now s).trace
        = databaseCalls s.trace ++
            [ Event.prepare
                ("INSERT INTO items (name, part_number, nsn, serial_number, quantity)"
                  ++ " VALUES (?, ?, ?, ?, ?)").toList,
              Event.bind_text 1 (ToUtf8 s.name_edit),
              Event.bind_text 2 (ToUtf8 s.part_edit),
              Event.bind_text 3 (ToUtf8 s.nsn_edit),
              Event.bind_text 4 (ToUtf8 s.serial_edit),
              Event.bind_int 5 q,
              Event.step,
              Event.finalize,
              Event.prepare (buildQuery []) ]
            ++ List.replicate ((SaveRecord now s).db.items.length + 1) Event.step
            ++ [Event.finalize] := by
  have he : (s.name_edit.isEmpty || s.part_edit.isEmpty || s.nsn_edit.isEmpty
      || s.serial_edit.isEmpty) = false := by
    cases hn2 : s.name_edit with
    | nil => exact absurd hn2 hn
    | cons _ _ =>
      cases hp2 : s.part_edit with
      | nil => exact absurd hp2 hp
      | cons _ _ =>
        cases hm2 : s.nsn_edit with
        | nil => exact absurd hm2 hm
        | cons _ _ =>
          cases hr2 : s.serial_edit with
          | nil => exact absurd hr2 hr
          | cons _ _ => rfl
  have hu : SaveRecord now s = RefreshResults (ClearInputs (SetStatus
      { s with
        db := insertItem s.db now (ToUtf8 s.name_edit) (ToUtf8 s.part_edit)
                (ToUtf8 s.nsn_edit) (ToUtf8 s.serial_edit) q,
        trace := s.trace ++
          [ Event.prepare
              ("INSERT INTO items (name, part_number, nsn, serial_number, quantity)"
                ++ " VALUES (?, ?, ?, ?, ?)").toList,
            Event.bind_text 1 (ToUtf8 s.name_edit),
            Event.bind_text 2 (ToUtf8 s.part_edit),
            Event.bind_text 3 (ToUtf8 s.nsn_edit),
            Event.bind_text 4 (ToUtf8 s.serial_edit),
            Event.bind_int 5 q,
            Event.step,
            Event.finalize ] } "Record saved.".toList)) := by
    unfold SaveRecord
    simp only [he, Bool.false_eq_true, if_false, hq]
  have hdb : (SaveRecord now s).db
      = insertItem s.db now (ToUtf8 s.name_edit) (ToUtf8 s.part_edit)
          (ToUtf8 s.nsn_edit) (ToUtf8 s.serial_edit) q := by
    rw [hu, RefreshResults_db]
    rfl
  refine ⟨hdb, ?_⟩
  rw [hdb, hu, (RefreshResults_ClearInputs _).1]
  simp [databaseCalls, List.filter_append, Event.isDatabaseCall, SetStatus]

/-- C9, as the code has it: for every input that `SaveRecord` or
`UpdateRecord` accepts, the integer bound to the quantity column and stored in
the row is the value `ParseInt` read from the quantity text, within the 32-bit
`int` range; it is zero or positive whenever the text holds no minus sign.  A
negative numeral is accepted and written as it is. -/
theorem written_quantity_is_parsed_value (now : List Char) (s : AppState) (q : Int)
    (hn : s.name_edit ≠ []) (hp : s.part_edit ≠ []) (hm : s.nsn_edit ≠ [])
    (hr : s.serial_edit ≠ []) (hq : ParseInt s.quantity_edit = some q) :
    INT_MIN ≤ q ∧ q ≤ INT_MAX ∧ ('-' ∉ s.quantity_edit → 0 ≤ q) ∧
    (SaveRecord now s).db.items
      = s.db.items ++
          [{ id := s.db.seq + 1, name := ToUtf8 s.name_edit, part_number := ToUtf8 s.part_edit,
             nsn := ToUtf8 s.nsn_edit, serial_number := ToUtf8 s.serial_edit,
             quantity := q, created_at := now }] ∧
    (∀ v, Event.bind_int 5 v ∈
            (databaseCalls (SaveRecord now s).trace).drop (databaseCalls s.trace).length ↔
          v = q) ∧
    (0 ≤ s.selected_id →
      (∀ r ∈ (UpdateRecord s).db.items, r.id = s.selected_id → r.quantity = q) ∧
      (∀ v, Event.bind_int 5 v ∈
              (databaseCalls (UpdateRecord s).trace).drop (databaseCalls s.trace).length ↔
            v = q)) := by
  obtain ⟨h1, h2, h3⟩ := ParseInt_range _ _ hq
  obtain ⟨hsdb, hscalls⟩ := SaveRecord_accepted now s q hn hp hm hr hq
  refine ⟨h1, h2, h3, ?_, ?_, ?_⟩
  · rw [hsdb]
    rfl
  · intro v
    rw [hscalls, List.append_assoc, List.append_assoc, List.drop_left]
    simp
  · intro hsel
    obtain ⟨hudb, _, hucalls, _⟩ := UpdateRecord_accepted s q hsel hn hp hm hr hq
    constructor
    · intro r hrmem hid
      rw [hudb] at hrmem
      unfold updateItem at hrmem
      obtain ⟨r0, _, hr0⟩ := List.mem_map.mp hrmem
      by_cases h0 : r0.id = s.selected_id
      · rw [if_pos h0] at hr0
        rw [← hr0]
      · rw [if_neg h0] at hr0
        rw [← hr0] at hid
        exact absurd hid h0
    · intro v
      rw [hucalls, List.append_assoc, List.append_assoc, List.drop_left]
      simp

/-- C9, amended, at the quantity text `12` with the stored row 1 selected. -/
theorem written_quantity_is_parsed_value_witness :
    INT_MIN ≤ 12 ∧ (12 : Int) ≤ INT_MAX ∧ ('-' ∉ "12".toList → (0 : Int) ≤ 12) ∧
    (SaveRecord "2024-01-02 00:00:00".toList
        (selectedState [sampleRow 1 "abc".toList 3 "2024-01-01 00:00:00".toList] 1
          "n".toList "p".toList "m".toList "r".toList "12".toList)).db.items
      = [sampleRow 1 "abc".toList 3 "2024-01-01 00:00:00".toList] ++
          [{ id := 1 + 1, name := ToUtf8 "n".toList, part_number := ToUtf8 "p".toList,
             nsn := ToUtf8 "m".toList, serial_number := ToUtf8 "r".toList,
             quantity := 12, created_at := "2024-01-02 00:00:00".toList }] ∧
    (∀ v, Event.bind_int 5 v ∈
            (databaseCalls
              (SaveRecord "2024-01-02 00:00:00".toList
                (selectedState [sampleRow 1 "abc".toList 3 "2024-01-01 00:00:00".toList] 1
                  "n".toList "p".toList "m".toList "r".toList "12".toList)).trace).drop
              (databaseCalls
                (selectedState [sampleRow 1 "abc".toList 3 "2024-01-01 00:00:00".toList] 1
                  "n".toList "p".toList "m".toList "r".toList "12".toList).trace).length ↔
          v = 12) ∧
    ((0 : Int) ≤ 1 →
      (∀ r ∈ (UpdateRecord
                (selectedState [sampleRow 1 "abc".toList 3 "2024-01-01 00:00:00".toList] 1
                  "n".toList "p".toList "m".toList "r".toList "12".toList)).db.items,
          r.id = 1 → r.quantity = 12) ∧
      (∀ v, Event.bind_int 5 v ∈
              (databaseCalls
                (UpdateRecord
                  (selectedState [sampleRow 1 "abc".toList 3 "2024-01-01 00:00:00".toList] 1
                    "n".toList "p".toList "m".toList "r".toList "12".toList)).trace).drop
                (databaseCalls
                  (selectedState [sampleRow 1 "abc".toList 3 "2024-01-01 00:00:00".toList] 1
                    "n".toList "p".toList "m".toList "r".toList "12".toList).trace).length ↔
            v = 12)) :=
  written_quantity_is_parsed_value "2024-01-02 00:00:00".toList
    (selectedState [sampleRow 1 "abc".toList 3 "2024-01-01 00:00:00".toList] 1
      "n".toList "p".toList "m".toList "r".toList "12".toList) 12
    (by decide) (by decide) (by decide) (by decide) (by decide)

/-- C9 fails as stated: with the quantity text `-5` both `SaveRecord` and
`UpdateRecord` accept the input and write the quantity -5. -/
theorem negative_quantity_counterexample :
    (SaveRecord "2024-01-01 00:00:00".toList
        (mkState [] "n".toList "p".toList "m".toList "r".toList "-5".toList)).db.items
      = [{ id := 1, name := "n".toList, part_number := "p".toList, nsn := "m".toList,
           serial_number := "r".toList, quantity := -5,
           created_at := "2024-01-01 00:00:00".toList }] ∧
    (UpdateRecord
        { mkState [sampleRow 1 "abc".toList 3 "2024-01-01 00:00:00".toList]
            "n".toList "p".toList "m".toList "r".toList "-5".toList
          with selected_id := 1 }).db.items
      = [{ id := 1, name := "n".toList, part_number := "p".toList, nsn := "m".toList,
           serial_number := "r".toList, quantity := -5,
           created_at := "2024-01-01 00:00:00".toList }] ∧
    Event.bind_int 5 (-5) ∈
      (SaveRecord "2024-01-01 00:00:00".toList
        (mkState [] "n".toList "p".toList "m".toList "r".toList "-5".toList)).trace := by
  decide

/-! ## Quantity filter -/

theorem digitsValue_append_singleton (pre : List Char) (d : Char) :
    digitsValue (pre ++ [d]) = 10 * digitsValue pre + digitValue d := by
  simp [digitsValue, List.foldl_append]

/-- The character of a digit below ten is a decimal digit with that value. -/
theorem digitChar_spec (k : Nat) (h : k < 10) :
    iswdigit (Nat.digitChar k) = true ∧ digitValue (Nat.digitChar k) = k := by
  interval_cases k <;> exact ⟨by decide, by decide⟩

/-- The digits that numeral printing puts in front of the accumulator are
decimal digits whose value is the number printed. -/
theorem toDigitsCore_spec (fuel n : Nat) (ds : List Char) (h : n < fuel) :
    ∃ pre, Nat.toDigitsCore 10 fuel n ds = pre ++ ds ∧ pre ≠ [] ∧
      (∀ c ∈ pre, iswdigit c = true) ∧ digitsValue pre = n := by
  induction fuel generalizing n ds with
  | zero => exact absurd h (Nat.not_lt_zero _)
  | succ fuel ih =>
    have hmod : n % 10 < 10 := Nat.mod_lt _ (by decide)
    obtain ⟨hd1, hd2⟩ := digitChar_spec (n % 10) hmod
    by_cases h0 : n / 10 = 0
    · refine ⟨[Nat.digitChar (n % 10)], ?_, by simp, ?_, ?_⟩
      · simp [Nat.toDigitsCore, h0]
      · intro c hc
        rw [List.mem_singleton.mp hc]
        exact hd1
      · have hn : n % 10 = n := by omega
        simp only [digitsValue, List.foldl_cons, List.foldl_nil, hd2]
        omega
    · have hlt : n / 10 < fuel := by omega
      obtain ⟨pre, hp1, _, hp3, hp4⟩ := ih (n / 10) (Nat.digitChar (n % 10) :: ds) hlt
      refine ⟨pre ++ [Nat.digitChar (n % 10)], ?_, by simp, ?_, ?_⟩
      · simp only [Nat.toDigitsCore, h0, if_false, hp1, List.append_assoc, List.singleton_append]
      · intro c hc
        rcases List.mem_append.mp hc with hc | hc
        · exact hp3 c hc
        · rw [List.mem_singleton.mp hc]
          exact hd1
      · rw [digitsValue_append_singleton, hp4, hd2]
        omega

/-- The decimal numeral of a natural number is a non-empty run of decimal
digits with that value. -/
theorem Nat_repr_spec (n : Nat) :
    (Nat.repr n).toList ≠ [] ∧ (∀ c ∈ (Nat.repr n).toList, iswdigit c = true) ∧
      digitsValue (Nat.repr n).toList = n := by
  obtain ⟨pre, h1, h2, h3, h4⟩ := toDigitsCore_spec (n + 1) n [] (Nat.lt_succ_self n)
  have hl : (Nat.repr n).toList = pre := by
    simp only [Nat.repr, Nat.toDigits, h1, List.append_nil]
    rfl
  rw [hl]
  exact ⟨h2, h3, h4⟩

/-- `ParseInt` reads back the decimal numeral of every integer of the `int`
range. -/
theorem ParseInt_to_wstring (n : Int) (h1 : INT_MIN ≤ n) (h2 : n ≤ INT_MAX) :
    ParseInt (to_wstring n) = some n := by
  rw [ParseInt_shape]
  cases n with
  | ofNat m =>
    obtain ⟨r1, r2, r3⟩ := Nat_repr_spec m
    refine ⟨[], [], (Nat.repr m).toList, ?_, by simp, Or.inl rfl, r1, r2, ?_, h1, h2⟩
    · rfl
    · simp only [signedValue, r3]
      rfl
  | negSucc m =>
    obtain ⟨r1, r2, r3⟩ := Nat_repr_spec (m + 1)
    refine ⟨[], ['-'], (Nat.repr (m + 1)).toList, ?_, by simp, Or.inr (Or.inr rfl), r1, r2, ?_,
      h1, h2⟩
    · rfl
    · simp only [signedValue, if_true, r3]
      rfl

/-- The decimal numeral of an integer is never the empty text. -/
theorem to_wstring_ne_nil (n : Int) : to_wstring n ≠ [] := by
  cases n with
  | ofNat m => exact (Nat_repr_spec m).1
  | negSucc m =>
    intro h
    have : to_wstring (Int.negSucc m) = '-' :: (Nat.repr (m + 1)).toList := rfl
    rw [this] at h
    exact List.cons_ne_nil _ _ h

/-- The WHERE clause over a concatenation of predicate lists. -/
theorem whereHolds_append (a b : List (List Char)) (binds : List (Int × SqlValue))
    (first : Int) (row : Row) :
    whereHolds (a ++ b) binds first row
      = (whereHolds a binds first row && whereHolds b binds (first + (a.length : Int)) row) := by
  induction a generalizing first with
  | nil => simp [whereHolds]
  | cons c rest ih =>
    have h := ih (first + 1)
    have hidx : first + 1 + (rest.length : Int) = first + ((rest.length : Int) + 1) := by ring
    rw [hidx] at h
    simp only [List.cons_append, whereHolds, List.length_cons, Nat.cast_succ, Bool.and_assoc]
    exact congrArg (fun x => conditionHolds c (boundValue binds first) row && x) h

/-- The placeholder bound last holds the value bound last. -/
theorem boundValue_last (binds : List (Int × SqlValue)) (index : Int) (value : SqlValue) :
    boundValue (binds ++ [(index, value)]) index = value := by
  simp [boundValue]

/-- The engine on the quantity predicate with an integer bound. -/
theorem conditionHolds_quantity (n : Int) (row : Row) :
    conditionHolds kQuantityCondition (SqlValue.int n) row = decide (row.quantity = n) :=
  rfl

/-- C10: for every integer n of the 32-bit `int` range, zero included, the
search whose quantity text is the decimal numeral of n passes validation, adds
the predicate `quantity = ?` last, and binds to it the integer n itself, at the
index after the text patterns; every row it shows has quantity exactly n, and
with no other field supplied it shows exactly the rows with quantity n. -/
theorem quantity_filter_is_exact (s : AppState) (n : Int)
    (h1 : INT_MIN ≤ n) (h2 : n ≤ INT_MAX) (hq : s.quantity_edit = to_wstring n) :
    ParseInt s.quantity_edit = some n ∧
    collectConditions s.name_edit s.part_edit s.nsn_edit s.serial_edit s.quantity_edit
      = some ((collectTextFilters s.name_edit s.part_edit s.nsn_edit s.serial_edit).1
                ++ [kQuantityCondition],
              (collectTextFilters s.name_edit s.part_edit s.nsn_edit s.serial_edit).2, n) ∧
    searchBinds (collectTextFilters s.name_edit s.part_edit s.nsn_edit s.serial_edit).2
        s.quantity_edit n
      = (bindParameters
            (collectTextFilters s.name_edit s.part_edit s.nsn_edit s.serial_edit).2 1).1
          ++ [((((collectTextFilters s.name_edit s.part_edit s.nsn_edit
                    s.serial_edit).2.length : Nat) : Int) + 1,
                SqlValue.int n)] ∧
    Event.bind_int
        ((((collectTextFilters s.name_edit s.part_edit s.nsn_edit
              s.serial_edit).2.length : Nat) : Int) + 1) n
      ∈ (RefreshResults s).trace.drop s.trace.length ∧
    (RefreshResults s).results_view
      = (selectItems s.db
          ((collectTextFilters s.name_edit s.part_edit s.nsn_edit s.serial_edit).1
            ++ [kQuantityCondition])
          (searchBinds (collectTextFilters s.name_edit s.part_edit s.nsn_edit s.serial_edit).2
            s.quantity_edit n)).map rowCells ∧
    (∀ r ∈ selectItems s.db
            ((collectTextFilters s.name_edit s.part_edit s.nsn_edit s.serial_edit).1
              ++ [kQuantityCondition])
            (searchBinds (collectTextFilters s.name_edit s.part_edit s.nsn_edit s.serial_edit).2
              s.quantity_edit n),
        r.quantity = n) ∧
    (s.name_edit = [] → s.part_edit = [] → s.nsn_edit = [] → s.serial_edit = [] →
      (RefreshResults s).results_view
        = (orderByCreatedDesc
            (s.db.items.filter (fun r => decide (r.quantity = n)))).map rowCells) := by
  have hp : ParseInt s.quantity_edit = some n := by
    rw [hq]
    exact ParseInt_to_wstring n h1 h2
  have hne : s.quantity_edit ≠ [] := by
    rw [hq]
    exact to_wstring_ne_nil n
  have hc : collectConditions s.name_edit s.part_edit s.nsn_edit s.serial_edit s.quantity_edit
      = some ((collectTextFilters s.name_edit s.part_edit s.nsn_edit s.serial_edit).1
                ++ [kQuantityCondition],
              (collectTextFilters s.name_edit s.part_edit s.nsn_edit s.serial_edit).2, n) := by
    rw [collectConditions_eq, if_neg hne, hp]
    rfl
  obtain ⟨_, _, _, hlast⟩ := searchBinds_spec _ _ _ _ _ _ _ _ hc
  obtain ⟨hsb, hlen, _⟩ := hlast hne
  have hview : (RefreshResults s).results_view
      = (selectItems s.db
          ((collectTextFilters s.name_edit s.part_edit s.nsn_edit s.serial_edit).1
            ++ [kQuantityCondition])
          (searchBinds (collectTextFilters s.name_edit s.part_edit s.nsn_edit s.serial_edit).2
            s.quantity_edit n)).map rowCells := by
    simp only [RefreshResults, hc, SetStatus]
  have hrow : ∀ r : Row,
      whereHolds
          ((collectTextFilters s.name_edit s.part_edit s.nsn_edit s.serial_edit).1
            ++ [kQuantityCondition])
          (searchBinds (collectTextFilters s.name_edit s.part_edit s.nsn_edit s.serial_edit).2
            s.quantity_edit n) 1 r = true →
        r.quantity = n := by
    intro r hr
    rw [whereHolds_append, Bool.and_eq_true] at hr
    have h3 := hr.2
    have hidx : (1 : Int)
        + (((collectTextFilters s.name_edit s.part_edit s.nsn_edit s.serial_edit).1.length
            : Nat) : Int)
        = (((collectTextFilters s.name_edit s.part_edit s.nsn_edit s.serial_edit).2.length
            : Nat) : Int) + 1 := by
      simp only [List.length_append, List.length_singleton] at hlen
      have : (collectTextFilters s.name_edit s.part_edit s.nsn_edit s.serial_edit).1.length
          = (collectTextFilters s.name_edit s.part_edit s.nsn_edit s.serial_edit).2.length := by
        omega
      rw [this]
      ring
    rw [hidx, hsb] at h3
    simp only [whereHolds, boundValue_last, conditionHolds_quantity, Bool.and_true,
      decide_eq_true_eq] at h3
    exact h3
  refine ⟨hp, hc, hsb, ?_, hview, ?_, ?_⟩
  · rw [RefreshResults_trace s _ _ n hc, hsb]
    simp only [List.append_assoc, List.drop_left, List.map_append, List.map_cons, List.map_nil]
    simp [bindEvent]
  · intro r hr
    exact hrow r ((mem_selectItems _ _ _ r).mp hr).2
  · intro e1 e2 e3 e4
    rw [hview]
    have ht1 : (collectTextFilters s.name_edit s.part_edit s.nsn_edit s.serial_edit).1 = [] := by
      rw [e1, e2, e3, e4]; rfl
    have ht2 : (collectTextFilters s.name_edit s.part_edit s.nsn_edit s.serial_edit).2 = [] := by
      rw [e1, e2, e3, e4]; rfl
    rw [ht1, ht2]
    unfold selectItems
    congr 2
    apply List.filter_congr
    intro r _
    have hne2 : (!s.quantity_edit.isEmpty) = true := by
      cases hqe : s.quantity_edit with
      | nil => exact absurd hqe hne
      | cons _ _ => rfl
    simp only [searchBinds, bindParameters, hne2, if_true, List.nil_append, whereHolds]
    have hb : boundValue [((1 : Int), SqlValue.int n)] 1 = SqlValue.int n :=
      boundValue_last [] 1 (SqlValue.int n)
    rw [hb, conditionHolds_quantity, Bool.and_true]

/-- C10 at n = 5 over rows with quantities 5, 15 and 50: the integer 5 is
bound and only the row with quantity 5 is shown. -/
theorem quantity_filter_is_exact_witness :
    ParseInt "5".toList = some 5 ∧
    collectConditions [] [] [] [] "5".toList = some ([] ++ [kQuantityCondition], [], 5) ∧
    searchBinds [] "5".toList 5 = [] ++ [((0 : Int) + 1, SqlValue.int 5)] ∧
    Event.bind_int ((0 : Int) + 1) 5
      ∈ (RefreshResults
          (mkState [sampleRow 1 "a".toList 5 "2024-01-01 00:00:00".toList,
                    sampleRow 2 "b".toList 15 "2024-01-02 00:00:00".toList,
                    sampleRow 3 "c".toList 50 "2024-01-03 00:00:00".toList]
            [] [] [] [] "5".toList)).trace.drop 0 ∧
    (RefreshResults
        (mkState [sampleRow 1 "a".toList 5 "2024-01-01 00:00:00".toList,
                  sampleRow 2 "b".toList 15 "2024-01-02 00:00:00".toList,
                  sampleRow 3 "c".toList 50 "2024-01-03 00:00:00".toList]
          [] [] [] [] "5".toList)).results_view
      = [rowCells (sampleRow 1 "a".toList 5 "2024-01-01 00:00:00".toList)] ∧
    (∀ r ∈ selectItems
            { items := [sampleRow 1 "a".toList 5 "2024-01-01 00:00:00".toList,
                        sampleRow 2 "b".toList 15 "2024-01-02 00:00:00".toList,
                        sampleRow 3 "c".toList 50 "2024-01-03 00:00:00".toList],
              seq := 3 }
            ([] ++ [kQuantityCondition]) (searchBinds [] "5".toList 5),
        r.quantity = 5) ∧
    (([] : List Char) = [] → ([] : List Char) = [] → ([] : List Char) = [] →
      ([] : List Char) = [] →
      (RefreshResults
          (mkState [sampleRow 1 "a".toList 5 "2024-01-01 00:00:00".toList,
                    sampleRow 2 "b".toList 15 "2024-01-02 00:00:00".toList,
                    sampleRow 3 "c".toList 50 "2024-01-03 00:00:00".toList]
            [] [] [] [] "5".toList)).results_view
        = (orderByCreatedDesc
            ([sampleRow 1 "a".toList 5 "2024-01-01 00:00:00".toList,
              sampleRow 2 "b".toList 15 "2024-01-02 00:00:00".toList,
              sampleRow 3 "c".toList 50 "2024-01-03 00:00:00".toList].filter
              (fun r => decide (r.quantity = 5)))).map rowCells) :=
  quantity_filter_is_exact
    (mkState [sampleRow 1 "a".toList 5 "2024-01-01 00:00:00".toList,
              sampleRow 2 "b".toList 15 "2024-01-02 00:00:00".toList,
              sampleRow 3 "c".toList 50 "2024-01-03 00:00:00".toList]
      [] [] [] [] "5".toList)
    5 (by decide) (by decide) (by decide)

/-! ## Empty text fields -/

/-- The guard of lines 260 and 307 fires when one of the four texts is empty. -/
theorem anyEmpty_of_or (name part nsn serial : List Char)
    (h : name = [] ∨ part = [] ∨ nsn = [] ∨ serial = []) :
    (name.isEmpty || part.isEmpty || nsn.isEmpty || serial.isEmpty) = true := by
  rcases h with h | h | h | h <;> subst h <;> simp

/-- The guard of lines 260 and 307 passes when none of the four texts is
empty. -/
theorem anyEmpty_false_iff (name part nsn serial : List Char) :
    (name.isEmpty || part.isEmpty || nsn.isEmpty || serial.isEmpty) = false ↔
      name ≠ [] ∧ part ≠ [] ∧ nsn ≠ [] ∧ serial ≠ [] := by
  cases name <;> cases part <;> cases nsn <;> cases serial <;> simp

/-- Setting the status is no call on the database. -/
theorem databaseCalls_SetStatus (s : AppState) (message : List Char) :
    databaseCalls (SetStatus s message).trace = databaseCalls s.trace := by
  simp [databaseCalls, SetStatus, List.filter_append, Event.isDatabaseCall]

/-- With an empty text field `SaveRecord` only sets the status. -/
theorem SaveRecord_empty_field (now : List Char) (s : AppState)
    (h : s.name_edit = [] ∨ s.part_edit = [] ∨ s.nsn_edit = [] ∨ s.serial_edit = []) :
    SaveRecord now s = SetStatus s "Please fill out all fields before saving.".toList := by
  unfold SaveRecord
  simp only [anyEmpty_of_or _ _ _ _ h, if_true]

/-- With an empty text field `UpdateRecord` only sets the status, whether a
row is selected or not. -/
theorem UpdateRecord_empty_field (s : AppState)
    (h : s.name_edit = [] ∨ s.part_edit = [] ∨ s.nsn_edit = [] ∨ s.serial_edit = []) :
    UpdateRecord s = SetStatus s "Select a record to update.".toList ∨
      UpdateRecord s = SetStatus s "Please fill out all fields before updating.".toList := by
  by_cases hsel : s.selected_id < 0
  · exact Or.inl (UpdateRecord_unselected s hsel)
  · right
    unfold UpdateRecord
    simp only [hsel, if_false, anyEmpty_of_or _ _ _ _ h, if_true]

/-- The conversion keeps a text that holds no NUL. -/
theorem ToUtf8_controlText (text : List Char) (h : isControlText text = true) :
    ToUtf8 text = text := by
  unfold ToUtf8
  cases text with
  | nil => rfl
  | cons c cs =>
    simp only [List.isEmpty_cons, Bool.false_eq_true, if_false]
    apply List.takeWhile_eq_self_iff.mpr
    intro x hx
    exact List.all_eq_true.mp h x hx

/-- What `SaveRecord` does to the table: nothing, or the INSERT of the
converted texts of four non-empty fields. -/
theorem SaveRecord_db_cases (now : List Char) (s : AppState) :
    (SaveRecord now s).db = s.db ∨
      (s.name_edit ≠ [] ∧ s.part_edit ≠ [] ∧ s.nsn_edit ≠ [] ∧ s.serial_edit ≠ [] ∧
        ∃ q, ParseInt s.quantity_edit = some q ∧
          (SaveRecord now s).db
            = insertItem s.db now (ToUtf8 s.name_edit) (ToUtf8 s.part_edit)
                (ToUtf8 s.nsn_edit) (ToUtf8 s.serial_edit) q) := by
  by_cases he : (s.name_edit.isEmpty || s.part_edit.isEmpty || s.nsn_edit.isEmpty
      || s.serial_edit.isEmpty) = true
  · left
    unfold SaveRecord
    simp only [he, if_true]
    rfl
  · have he2 := (anyEmpty_false_iff _ _ _ _).mp (Bool.eq_false_iff.mpr he)
    cases hq : ParseInt s.quantity_edit with
    | none =>
      left
      unfold SaveRecord
      simp only [he, Bool.false_eq_true, if_false, hq]
      rfl
    | some q =>
      right
      exact ⟨he2.1, he2.2.1, he2.2.2.1, he2.2.2.2, q, rfl,
        (SaveRecord_accepted now s q he2.1 he2.2.1 he2.2.2.1 he2.2.2.2 hq).1⟩

/-- What `UpdateRecord` does to the table: nothing, or the UPDATE with the
converted texts of four non-empty fields. -/
theorem UpdateRecord_db_cases (s : AppState) :
    (UpdateRecord s).db = s.db ∨
      (s.name_edit ≠ [] ∧ s.part_edit ≠ [] ∧ s.nsn_edit ≠ [] ∧ s.serial_edit ≠ [] ∧
        ∃ q, ParseInt s.quantity_edit = some q ∧
          (UpdateRecord s).db
            = updateItem s.db s.selected_id (ToUtf8 s.name_edit) (ToUtf8 s.part_edit)
                (ToUtf8 s.nsn_edit) (ToUtf8 s.serial_edit) q) := by
  by_cases hsel : s.selected_id < 0
  · left
    rw [UpdateRecord_unselected s hsel]
    rfl
  · by_cases he : (s.name_edit.isEmpty || s.part_edit.isEmpty || s.nsn_edit.isEmpty
        || s.serial_edit.isEmpty) = true
    · left
      unfold UpdateRecord
      simp only [hsel, if_false, he, if_true]
      rfl
    · have he2 := (anyEmpty_false_iff _ _ _ _).mp (Bool.eq_false_iff.mpr he)
      cases hq : ParseInt s.quantity_edit with
      | none =>
        left
        unfold UpdateRecord
        simp only [hsel, if_false, he, Bool.false_eq_true, hq]
        rfl
      | some q =>
        right
        exact ⟨he2.1, he2.2.1, he2.2.2.1, he2.2.2.2, q, rfl,
          (UpdateRecord_accepted s q (not_lt.mp hsel) he2.1 he2.2.1 he2.2.2.1 he2.2.2.2 hq).1⟩

/-- C11: for every input in which name, part_number, nsn or serial_number is
the empty string, `SaveRecord` and `UpdateRecord` only set the status: they
make no call on the database (no INSERT, no UPDATE) and leave the table as it
was.  Consequently, for the texts an edit control can hold (no NUL character),
every row of the table after `SaveRecord` or `UpdateRecord` is a row that was
there before or has four non-empty text fields. -/
theorem empty_text_field_blocks_write (now : List Char) (s : AppState) :
    ((s.name_edit = [] ∨ s.part_edit = [] ∨ s.nsn_edit = [] ∨ s.serial_edit = []) →
      SaveRecord now s = SetStatus s "Please fill out all fields before saving.".toList ∧
      (SaveRecord now s).db = s.db ∧
      databaseCalls (SaveRecord now s).trace = databaseCalls s.trace ∧
      (UpdateRecord s = SetStatus s "Select a record to update.".toList ∨
        UpdateRecord s = SetStatus s "Please fill out all fields before updating.".toList) ∧
      (UpdateRecord s).db = s.db ∧
      databaseCalls (UpdateRecord s).trace = databaseCalls s.trace) ∧
    (isControlText s.name_edit = true → isControlText s.part_edit = true →
      isControlText s.nsn_edit = true → isControlText s.serial_edit = true →
      (∀ r ∈ (SaveRecord now s).db.items, r ∈ s.db.items ∨ r.hasTextFields = true) ∧
      (∀ r ∈ (UpdateRecord s).db.items, r ∈ s.db.items ∨ r.hasTextFields = true)) := by
  constructor
  · intro h
    have hs := SaveRecord_empty_field now s h
    have hu := UpdateRecord_empty_field s h
    refine ⟨hs, ?_, ?_, hu, ?_, ?_⟩
    · rw [hs]; rfl
    · rw [hs]; exact databaseCalls_SetStatus _ _
    · rcases hu with hu | hu <;> rw [hu] <;> rfl
    · rcases hu with hu | hu <;> rw [hu] <;> exact databaseCalls_SetStatus _ _
  · intro c1 c2 c3 c4
    constructor
    · intro r hr
      rcases SaveRecord_db_cases now s with h | ⟨hn, hp, hm, hs, q, _, hdb⟩
      · rw [h] at hr
        exact Or.inl hr
      · rw [hdb, ToUtf8_controlText _ c1, ToUtf8_controlText _ c2, ToUtf8_controlText _ c3,
          ToUtf8_controlText _ c4] at hr
        unfold insertItem at hr
        rcases List.mem_append.mp hr with hr | hr
        · exact Or.inl hr
        · right
          rw [List.mem_singleton.mp hr]
          simp [Row.hasTextFields, hn, hp, hm, hs]
    · intro r hr
      rcases UpdateRecord_db_cases s with h | ⟨hn, hp, hm, hs, q, _, hdb⟩
      · rw [h] at hr
        exact Or.inl hr
      · rw [hdb, ToUtf8_controlText _ c1, ToUtf8_controlText _ c2, ToUtf8_controlText _ c3,
          ToUtf8_controlText _ c4] at hr
        unfold updateItem at hr
        obtain ⟨r0, hr0, hmap⟩ := List.mem_map.mp hr
        by_cases hid : r0.id = s.selected_id
        · right
          rw [if_pos hid] at hmap
          rw [← hmap]
          simp [Row.hasTextFields, hn, hp, hm, hs]
        · left
          rw [if_neg hid] at hmap
          rw [← hmap]
          exact hr0

/-- C11 at an input whose nsn is empty (nothing is written) and at an input
with the four texts filled (the row written has four non-empty texts). -/
theorem empty_text_field_blocks_write_witness :
    (SaveRecord "2024-01-02 00:00:00".toList
        (selectedState [sampleRow 1 "abc".toList 3 "2024-01-01 00:00:00".toList] 1
          "n".toList "p".toList [] "r".toList "4".toList)
      = SetStatus
          (selectedState [sampleRow 1 "abc".toList 3 "2024-01-01 00:00:00".toList] 1
            "n".toList "p".toList [] "r".toList "4".toList)
          "Please fill out all fields before saving.".toList ∧
      (SaveRecord "2024-01-02 00:00:00".toList
          (selectedState [sampleRow 1 "abc".toList 3 "2024-01-01 00:00:00".toList] 1
            "n".toList "p".toList [] "r".toList "4".toList)).db
        = { items := [sampleRow 1 "abc".toList 3 "2024-01-01 00:00:00".toList], seq := 1 } ∧
      databaseCalls
          (SaveRecord "2024-01-02 00:00:00".toList
            (selectedState [sampleRow 1 "abc".toList 3 "2024-01-01 00:00:00".toList] 1
              "n".toList "p".toList [] "r".toList "4".toList)).trace
        = databaseCalls [] ∧
      (UpdateRecord
            (selectedState [sampleRow 1 "abc".toList 3 "2024-01-01 00:00:00".toList] 1
              "n".toList "p".toList [] "r".toList "4".toList)
          = SetStatus
              (selectedState [sampleRow 1 "abc".toList 3 "2024-01-01 00:00:00".toList] 1
                "n".toList "p".toList [] "r".toList "4".toList)
              "Select a record to update.".toList ∨
        UpdateRecord
            (selectedState [sampleRow 1 "abc".toList 3 "2024-01-01 00:00:00".toList] 1
              "n".toList "p".toList [] "r".toList "4".toList)
          = SetStatus
              (selectedState [sampleRow 1 "abc".toList 3 "2024-01-01 00:00:00".toList] 1
                "n".toList "p".toList [] "r".toList "4".toList)
              "Please fill out all fields before updating.".toList) ∧
      (UpdateRecord
          (selectedState [sampleRow 1 "abc".toList 3 "2024-01-01 00:00:00".toList] 1
            "n".toList "p".toList [] "r".toList "4".toList)).db
        = { items := [sampleRow 1 "abc".toList 3 "2024-01-01 00:00:00".toList], seq := 1 } ∧
      databaseCalls
          (UpdateRecord
            (selectedState [sampleRow 1 "abc".toList 3 "2024-01-01 00:00:00".toList] 1
              "n".toList "p".toList [] "r".toList "4".toList)).trace
        = databaseCalls []) ∧
    ((∀ r ∈ (SaveRecord "2024-01-02 00:00:00".toList
                (selectedState [sampleRow 1 "abc".toList 3 "2024-01-01 00:00:00".toList] 1
                  "n".toList "p".toList "m".toList "r".toList "4".toList)).db.items,
          r ∈ [sampleRow 1 "abc".toList 3 "2024-01-01 00:00:00".toList] ∨
            r.hasTextFields = true) ∧
      (∀ r ∈ (UpdateRecord
                (selectedState [sampleRow 1 "abc".toList 3 "2024-01-01 00:00:00".toList] 1
                  "n".toList "p".toList "m".toList "r".toList "4".toList)).db.items,
          r ∈ [sampleRow 1 "abc".toList 3 "2024-01-01 00:00:00".toList] ∨
            r.hasTextFields = true)) :=
  ⟨(empty_text_field_blocks_write "2024-01-02 00:00:00".toList
      (selectedState [sampleRow 1 "abc".toList 3 "2024-01-01 00:00:00".toList] 1
        "n".toList "p".toList [] "r".toList "4".toList)).1 (Or.inr (Or.inr (Or.inl rfl))),
   (empty_text_field_blocks_write "2024-01-02 00:00:00".toList
      (selectedState [sampleRow 1 "abc".toList 3 "2024-01-01 00:00:00".toList] 1
        "n".toList "p".toList "m".toList "r".toList "4".toList)).2
      (by decide) (by decide) (by decide) (by decide)⟩

/-! ## Order of the results -/

/-- The binary collation is transitive. -/
theorem textLt_trans (a b c : List Char) (hab : textLt a b = true) (hbc : textLt b c = true) :
    textLt a c = true := by
  induction a generalizing b c with
  | nil =>
    cases c with
    | nil => cases b <;> simp [textLt] at hbc
    | cons z zs => rfl
  | cons x xs ih =>
    cases b with
    | nil => simp [textLt] at hab
    | cons y ys =>
      cases c with
      | nil => simp [textLt] at hbc
      | cons z zs =>
        simp only [textLt, Bool.or_eq_true, decide_eq_true_eq, Bool.and_eq_true] at hab hbc ⊢
        rcases hab with h1 | ⟨h1, h1r⟩
        · rcases hbc with h2 | ⟨h2, _⟩
          · exact Or.inl (by omega)
          · exact Or.inl (by omega)
        · rcases hbc with h2 | ⟨h2, h2r⟩
          · exact Or.inl (by omega)
          · exact Or.inr ⟨by omega, ih ys zs h1r h2r⟩

/-- Inserting a row keeps the rows already ordered in their order. -/
theorem sublist_insertByCreatedDesc (row : Row) (rows : List Row) :
    List.Sublist rows (insertByCreatedDesc row rows) := by
  induction rows with
  | nil => exact List.nil_sublist _
  | cons r rest ih =>
    unfold insertByCreatedDesc
    split
    · exact List.Sublist.cons₂ r ih
    · exact List.Sublist.cons row (List.Sublist.refl _)

/-- Ordering a table keeps the order that the ordering gives to its last
rows. -/
theorem orderByCreatedDesc_append_sublist (old rows : List Row) :
    List.Sublist (orderByCreatedDesc rows) (orderByCreatedDesc (old ++ rows)) := by
  induction old with
  | nil => exact List.Sublist.refl _
  | cons r rest ih =>
    simp only [List.cons_append, orderByCreatedDesc]
    exact ih.trans (sublist_insertByCreatedDesc r _)

/-- Three rows with strictly increasing `created_at` come out newest first. -/
theorem orderByCreatedDesc_three (a b c : Row)
    (hab : textLt a.created_at b.created_at = true)
    (hbc : textLt b.created_at c.created_at = true) :
    orderByCreatedDesc [a, b, c] = [c, b, a] := by
  have hac := textLt_trans _ _ _ hab hbc
  simp [orderByCreatedDesc, insertByCreatedDesc, hab, hbc, hac]

/-- The table after one insert through the form. -/
theorem saveItem_db (now : List Char) (f : ItemFields) (s : AppState) (q : Int)
    (hn : f.name ≠ []) (hp : f.part_number ≠ []) (hm : f.nsn ≠ [])
    (hr : f.serial_number ≠ []) (hq : ParseInt f.quantity = some q) :
    (saveItem now f s).db
      = { items := s.db.items ++ [writtenRow (s.db.seq + 1) f q now], seq := s.db.seq + 1 } :=
  (SaveRecord_accepted now (enterFields s f) q hn hp hm hr hq).1

/-- The rows shown by the search with no filter. -/
theorem searchAll_results_view (s : AppState) :
    (searchAll s).results_view = (orderByCreatedDesc s.db.items).map rowCells :=
  (RefreshResults_ClearInputs s).2

/-- C12, as the code has it: for every three valid items A, B, C inserted in
that order while the clock reads three strictly increasing `created_at` texts,
the search with no filter shows them in the order C, B, A among the rows of the
table, and shows exactly [C, B, A] when the table was empty before. -/
theorem three_inserts_newest_first (s : AppState) (a b c : ItemFields)
    (ta tb tc : List Char) (qa qb qc : Int)
    (han : a.name ≠ []) (hap : a.part_number ≠ []) (ham : a.nsn ≠ [])
    (har : a.serial_number ≠ []) (haq : ParseInt a.quantity = some qa)
    (hbn : b.name ≠ []) (hbp : b.part_number ≠ []) (hbm : b.nsn ≠ [])
    (hbr : b.serial_number ≠ []) (hbq : ParseInt b.quantity = some qb)
    (hcn : c.name ≠ []) (hcp : c.part_number ≠ []) (hcm : c.nsn ≠ [])
    (hcr : c.serial_number ≠ []) (hcq : ParseInt c.quantity = some qc)
    (hab : textLt ta tb = true) (hbc : textLt tb tc = true) :
    (saveItem tc c (saveItem tb b (saveItem ta a s))).db.items
      = s.db.items ++
          [ writtenRow (s.db.seq + 1) a qa ta,
            writtenRow (s.db.seq + 1 + 1) b qb tb,
            writtenRow (s.db.seq + 1 + 1 + 1) c qc tc ] ∧
    List.Sublist
      [ rowCells (writtenRow (s.db.seq + 1 + 1 + 1) c qc tc),
        rowCells (writtenRow (s.db.seq + 1 + 1) b qb tb),
        rowCells (writtenRow (s.db.seq + 1) a qa ta) ]
      (searchAll (saveItem tc c (saveItem tb b (saveItem ta a s)))).results_view ∧
    (s.db.items = [] →
      (searchAll (saveItem tc c (saveItem tb b (saveItem ta a s)))).results_view
        = [ rowCells (writtenRow (s.db.seq + 1 + 1 + 1) c qc tc),
            rowCells (writtenRow (s.db.seq + 1 + 1) b qb tb),
            rowCells (writtenRow (s.db.seq + 1) a qa ta) ]) := by
  have h1 := saveItem_db ta a s qa han hap ham har haq
  have h2 := saveItem_db tb b (saveItem ta a s) qb hbn hbp hbm hbr hbq
  have h3 := saveItem_db tc c (saveItem tb b (saveItem ta a s)) qc hcn hcp hcm hcr hcq
  have hitems : (saveItem tc c (saveItem tb b (saveItem ta a s))).db.items
      = s.db.items ++
          [ writtenRow (s.db.seq + 1) a qa ta,
            writtenRow (s.db.seq + 1 + 1) b qb tb,
            writtenRow (s.db.seq + 1 + 1 + 1) c qc tc ] := by
    rw [h3, h2, h1]
    simp only [List.append_assoc, List.singleton_append, List.cons_append, List.nil_append]
  have horder := orderByCreatedDesc_three
    (writtenRow (s.db.seq + 1) a qa ta) (writtenRow (s.db.seq + 1 + 1) b qb tb)
    (writtenRow (s.db.seq + 1 + 1 + 1) c qc tc) hab hbc
  refine ⟨hitems, ?_, ?_⟩
  · rw [searchAll_results_view, hitems]
    have hsub := orderByCreatedDesc_append_sublist s.db.items
      [ writtenRow (s.db.seq + 1) a qa ta,
        writtenRow (s.db.seq + 1 + 1) b qb tb,
        writtenRow (s.db.seq + 1 + 1 + 1) c qc tc ]
    rw [horder] at hsub
    exact hsub.map rowCells
  · intro hempty
    rw [searchAll_results_view, hitems, hempty, List.nil_append, horder]
    rfl

/-- C12, amended, at three items saved into an empty table in three
consecutive seconds. -/
theorem three_inserts_newest_first_witness :
    (saveItem "2024-01-01 00:00:03".toList (sampleFields "C".toList "3".toList)
      (saveItem "2024-01-01 00:00:02".toList (sampleFields "B".toList "2".toList)
        (saveItem "2024-01-01 00:00:01".toList (sampleFields "A".toList "1".toList)
          (mkState [] [] [] [] [] [])))).db.items
      = [] ++
          [ writtenRow (0 + 1) (sampleFields "A".toList "1".toList) 1
              "2024-01-01 00:00:01".toList,
            writtenRow (0 + 1 + 1) (sampleFields "B".toList "2".toList) 2
              "2024-01-01 00:00:02".toList,
            writtenRow (0 + 1 + 1 + 1) (sampleFields "C".toList "3".toList) 3
              "2024-01-01 00:00:03".toList ] ∧
    List.Sublist
      [ rowCells (writtenRow (0 + 1 + 1 + 1) (sampleFields "C".toList "3".toList) 3
          "2024-01-01 00:00:03".toList),
        rowCells (writtenRow (0 + 1 + 1) (sampleFields "B".toList "2".toList) 2
          "2024-01-01 00:00:02".toList),
        rowCells (writtenRow (0 + 1) (sampleFields "A".toList "1".toList) 1
          "2024-01-01 00:00:01".toList) ]
      (searchAll
        (saveItem "2024-01-01 00:00:03".toList (sampleFields "C".toList "3".toList)
          (saveItem "2024-01-01 00:00:02".toList (sampleFields "B".toList "2".toList)
            (saveItem "2024-01-01 00:00:01".toList (sampleFields "A".toList "1".toList)
              (mkState [] [] [] [] [] []))))).results_view ∧
    (([] : List Row) = [] →
      (searchAll
        (saveItem "2024-01-01 00:00:03".toList (sampleFields "C".toList "3".toList)
          (saveItem "2024-01-01 00:00:02".toList (sampleFields "B".toList "2".toList)
            (saveItem "2024-01-01 00:00:01".toList (sampleFields "A".toList "1".toList)
              (mkState [] [] [] [] [] []))))).results_view
        = [ rowCells (writtenRow (0 + 1 + 1 + 1) (sampleFields "C".toList "3".toList) 3
              "2024-01-01 00:00:03".toList),
            rowCells (writtenRow (0 + 1 + 1) (sampleFields "B".toList "2".toList) 2
              "2024-01-01 00:00:02".toList),
            rowCells (writtenRow (0 + 1) (sampleFields "A".toList "1".toList) 1
              "2024-01-01 00:00:01".toList) ]) :=
  three_inserts_newest_first (mkState [] [] [] [] [] [])
    (sampleFields "A".toList "1".toList) (sampleFields "B".toList "2".toList)
    (sampleFields "C".toList "3".toList)
    "2024-01-01 00:00:01".toList "2024-01-01 00:00:02".toList "2024-01-01 00:00:03".toList
    1 2 3
    (by decide) (by decide) (by decide) (by decide) (by decide)
    (by decide) (by decide) (by decide) (by decide) (by decide)
    (by decide) (by decide) (by decide) (by decide) (by decide)
    (by decide) (by decide)

/-- C12 fails as stated: three valid items A, B, C saved in that order into an
empty table within the same clock second get the same `created_at`, and the
search with no filter shows them in the order [A, B, C], not [C, B, A]. -/
theorem three_inserts_same_second_counterexample :
    (searchAll
      (saveItem "2024-01-01 00:00:01".toList (sampleFields "C".toList "3".toList)
        (saveItem "2024-01-01 00:00:01".toList (sampleFields "B".toList "2".toList)
          (saveItem "2024-01-01 00:00:01".toList (sampleFields "A".toList "1".toList)
            (mkState [] [] [] [] [] []))))).results_view
      = [ rowCells (writtenRow 1 (sampleFields "A".toList "1".toList) 1
            "2024-01-01 00:00:01".toList),
          rowCells (writtenRow 2 (sampleFields "B".toList "2".toList) 2
            "2024-01-01 00:00:01".toList),
          rowCells (writtenRow 3 (sampleFields "C".toList "3".toList) 3
            "2024-01-01 00:00:01".toList) ] ∧
    (searchAll
      (saveItem "2024-01-01 00:00:01".toList (sampleFields "C".toList "3".toList)
        (saveItem "2024-01-01 00:00:01".toList (sampleFields "B".toList "2".toList)
          (saveItem "2024-01-01 00:00:01".toList (sampleFields "A".toList "1".toList)
            (mkState [] [] [] [] [] []))))).results_view
      ≠ [ rowCells (writtenRow 3 (sampleFields "C".toList "3".toList) 3
            "2024-01-01 00:00:01".toList),
          rowCells (writtenRow 2 (sampleFields "B".toList "2".toList) 2
            "2024-01-01 00:00:01".toList),
          rowCells (writtenRow 1 (sampleFields "A".toList "1".toList) 1
            "2024-01-01 00:00:01".toList) ] := by
  decide

end Inventory
